import Mathlib

/-!
Verification development for the media_interface device-handler engine.

The Rust source is shallowly embedded as follows.

* A filesystem path is a list of name components (`Path`); an absolute
  path `/a/b` is `["a", "b"]`.  Rendering a path to a string prepends a
  `/` to every component, matching the display of the absolute paths the
  program manipulates.
* The filesystem is the list of paths of the regular files that exist,
  in directory-enumeration order (`FS`).  A path exists if it is one of
  the files or an ancestor directory of one; `fs::read_dir` is embedded
  by collecting, in first-occurrence order, the distinct next components
  of the files lying under the requested directory.  `read_dir` on a
  directory that does not exist fails, as in the Rust code.
* Fallible Rust functions returning `anyhow::Result<T>` become
  `Except String T`; the string carries the error message.
* Strings are treated as their character lists; the fixtures and naming
  conventions involved are ASCII, where Rust's byte indexing and
  `to_lowercase` agree with the character-level model used here.
* The helper `create_simple_file` is declared with two arguments in
  `helpers.rs` while the GoPro / Sony / generic handlers additionally
  pass the `metadata_file` value for the record; the embedding threads
  that optional argument through (the two-argument call sites of the
  GNSS handler pass `none`), keeping the body of `helpers.rs` otherwise
  verbatim, in particular its guard rejecting simple files of the video
  item kind.  The same applies to `create_simple_file_if_exists`.
* `u8` counters become `Nat`: every counter in scope is bounded by the
  literal loop bound 99 (plus one), far below 256, so wrap-around is
  unreachable and the identity embedding is exact.
-/

namespace MediaInterface

abbrev Path := List String

/-- `p` is an initial segment of `q` (path-prefix order, used for the
existence and directory-listing model). -/
def pathLe : Path → Path → Bool
  | [], _ => true
  | _ :: _, [] => false
  | a :: as, b :: bs => a = b && pathLe as bs

/-- The filesystem: the regular files that exist, in enumeration order. -/
abbrev FS := List Path

/-- `Path::exists`: the path is an existing file or an ancestor of one. -/
def pathExists (fs : FS) (p : Path) : Bool :=
  fs.any (fun q => pathLe p q)

/-- `Path::parent`: `none` for the root, otherwise drop the last
component. -/
def parentOpt (p : Path) : Option Path :=
  match p with
  | [] => none
  | _ :: _ => some p.dropLast

/-- Split a file name at its last dot: `rsplit_once('.')`. -/
def rsplitDot (cs : List Char) : Option (List Char × List Char) :=
  match cs with
  | [] => none
  | c :: rest =>
    match rsplitDot rest with
    | some (a, b) => some (c :: a, b)
    | none => if c = '.' then some ([], rest) else none

/-- `Path::extension` on a file name: the part after the last dot,
undefined when there is no dot or the name starts with its only dot. -/
def extName (name : String) : Option String :=
  match rsplitDot name.data with
  | some (stem, ext) => if stem = [] then none else some (String.mk ext)
  | none => none

/-- `Path::file_stem` on a file name. -/
def stemName (name : String) : String :=
  match rsplitDot name.data with
  | some (stem, _) => if stem = [] then name else String.mk stem
  | none => name

/-- `Path::with_extension` applied to a file name. -/
def withExtName (name ext : String) : String :=
  stemName name ++ "." ++ ext

/-- `Path::with_extension` on a path: replace the extension of the last
component; a path without a file name is returned unchanged. -/
def Path.withExtension (p : Path) (ext : String) : Path :=
  match p.getLast? with
  | none => p
  | some n => p.dropLast ++ [withExtName n ext]

/-- `to_string_lossy` on an absolute path. -/
def render (p : Path) : String :=
  p.foldl (fun acc c => acc ++ "/" ++ c) ""

/-- Character-list prefix test (kernel-reducible). -/
def charPre : List Char → List Char → Bool
  | [], _ => true
  | _ :: _, [] => false
  | a :: as, b :: bs => a = b && charPre as bs

/-- `str::ends_with` on the character-level string model. -/
def strEndsWith (s suffix : String) : Bool :=
  charPre suffix.data.reverse s.data.reverse

/-- First-occurrence deduplication, keeping enumeration order. -/
def dedupFirst (seen : List String) : List String → List String
  | [] => []
  | x :: xs => if x ∈ seen then dedupFirst seen xs else x :: dedupFirst (x :: seen) xs

/-- The distinct names of the direct children of `d`, in
first-occurrence order (model of `fs::read_dir`). -/
def dirChildNames (fs : FS) (d : Path) : List String :=
  dedupFirst [] (fs.filterMap (fun q => if pathLe d q then (q.drop d.length).head? else none))

/-- The direct children of `d` as paths. -/
def dirChildren (fs : FS) (d : Path) : List Path :=
  (dirChildNames fs d).map (fun n => d ++ [n])

/-- A legal file-name component: non-empty and without a separator. -/
def goodName (s : String) : Prop := s.data ≠ [] ∧ '/' ∉ s.data

/-- All components of the path are legal file names. -/
def goodPath (p : Path) : Prop := ∀ c ∈ p, goodName c

/-- All files of the filesystem have legal component names. -/
def goodFS (fs : FS) : Prop := ∀ p ∈ fs, goodPath p

instance (s : String) : Decidable (goodName s) := by
  unfold goodName
  infer_instance

instance (p : Path) : Decidable (goodPath p) := by
  unfold goodPath
  infer_instance

instance (fs : FS) : Decidable (goodFS fs) := by
  unfold goodFS
  infer_instance

/-! ### helpers.rs: classifier types and FileItem builders -/

inductive FileType where
  | FileVideo
  | FileVideoPreview
  | FileVideoRaw
  | FileImage
  | FileImagePreview
  | FileImageRaw
  | FileAudio
  | FileMetadata
  | FileGNSSTrack
deriving DecidableEq, Repr

inductive ItemType where
  | ItemVideo
  | ItemImage
  | ItemAudio
  | ItemGNSSTrack
deriving DecidableEq, Repr

structure JsonFileInfoTypes where
  file_type : FileType
  item_type : ItemType
deriving DecidableEq, Repr

structure FileItem where
  file_path : String
  file_type : String
  item_type : String
  part_count : Option Nat
  part_num : Option Nat
  metadata_file : Option String
deriving DecidableEq, Repr

/-- `get_extension_str`. -/
def get_extension_str (p : Path) : Except String String :=
  match p.getLast? with
  | none => .error "File has no extension"
  | some n =>
    match extName n with
    | none => .error "File has no extension"
    | some e => .ok e

def fileTypeStr : FileType → String
  | .FileVideo => "video"
  | .FileVideoPreview => "video-preview"
  | .FileVideoRaw => "video-raw"
  | .FileImage => "image"
  | .FileImagePreview => "image-preview"
  | .FileImageRaw => "image-raw"
  | .FileAudio => "audio"
  | .FileMetadata => "metadata"
  | .FileGNSSTrack => "gnss-track"

def itemTypeStr : ItemType → String
  | .ItemVideo => "video"
  | .ItemImage => "image"
  | .ItemAudio => "audio"
  | .ItemGNSSTrack => "gnss-track"

/-- `create_simple_file_unchecked`. -/
def create_simple_file_unchecked (file_path : String) (info : JsonFileInfoTypes) : FileItem :=
  { file_path := file_path
    file_type := fileTypeStr info.file_type
    item_type := itemTypeStr info.item_type
    part_count := none
    part_num := none
    metadata_file := none }

/-- `create_simple_file`: guarded builder; the `metadata_file` argument
is threaded through for the three-argument call sites. -/
def create_simple_file (file_path : String) (info : JsonFileInfoTypes)
    (metadata_file : Option String) : Except String FileItem :=
  if info.item_type = ItemType.ItemVideo then
    .error "Internal error: Tried to generate simple file for video item"
  else
    .ok { create_simple_file_unchecked file_path info with metadata_file := metadata_file }

/-- `create_part_file`. -/
def create_part_file (file_path : String) (info : JsonFileInfoTypes)
    (part_count part_num : Nat) (metadata_file : Option String) : FileItem :=
  { create_simple_file_unchecked file_path info with
      part_count := some part_count
      part_num := some part_num
      metadata_file := metadata_file }

/-- `create_simple_file_if_exists` (with the threaded metadata argument). -/
def create_simple_file_if_exists (fs : FS) (p : Path) (info : JsonFileInfoTypes)
    (metadata_file : Option String) : Except String (Option FileItem) :=
  if pathExists fs p then
    (create_simple_file (render p) info metadata_file).map some
  else
    .ok none

/-- `create_part_file_if_exists`. -/
def create_part_file_if_exists (fs : FS) (p : Path) (info : JsonFileInfoTypes)
    (part_count part_num : Nat) (metadata_file : Option String) : Option FileItem :=
  if pathExists fs p then
    some (create_part_file (render p) info part_count part_num metadata_file)
  else
    none

/-- `create_part_file_that_exists`. -/
def create_part_file_that_exists (fs : FS) (p : Path) (info : JsonFileInfoTypes)
    (part_count part_num : Nat) (metadata_file : Option String)
    (known_missing_files : List Path) : Except String (Option FileItem) :=
  if pathExists fs p then
    .ok (some (create_part_file (render p) info part_count part_num metadata_file))
  else if p ∈ known_missing_files then
    .ok none
  else
    .error ("File " ++ render p ++ " expected to exist")

/-- Per-entry processing of `for_each_file_type`: supply path, file
name, rendered path and optional extension to the visitor. -/
def entryVisit (g : Path → String → String → Option String → Except String (Option FileItem))
    (p : Path) : Except String (Option FileItem) :=
  match p.getLast? with
  | none => .error "Failed to get filename"
  | some fn => g p fn (render p) (extName fn)

/-- The collection loop of `filter_dir`, aborting on the first error. -/
def filterDirAux (f : Path → Except String (Option FileItem)) :
    List Path → Except String (List FileItem)
  | [] => .ok []
  | p :: ps =>
    match f p with
    | .error e => .error e
    | .ok none => filterDirAux f ps
    | .ok (some it) =>
      match filterDirAux f ps with
      | .error e => .error e
      | .ok its => .ok (it :: its)

/-- `filter_dir`: enumerate the directory, collect the emitted items,
wrap any error with the directory context (reading a directory that
does not exist fails, as `fs::read_dir` does). -/
def filter_dir (fs : FS) (dir : Path)
    (g : Path → String → String → Option String → Except String (Option FileItem)) :
    Except String (List FileItem) :=
  if pathExists fs dir then
    (filterDirAux (entryVisit g) (dirChildren fs dir)).mapError
      (fun e => "Error filtering dir '" ++ render dir ++ "': " ++ e)
  else
    .error ("Error filtering dir '" ++ render dir ++ "': reading directory failed")

/-! ### gopro_hero_generic_1.rs -/

/-- `get_gopro_video_part_id`: parse the 2-digit part number at byte
offsets 2..4 of the file name (`u8::parse` also accepts a leading
plus sign). -/
def get_gopro_video_part_id (filename : String) : Except String Nat :=
  match filename.data.drop 2 with
  | c1 :: c2 :: _ =>
    if c1.isDigit && c2.isDigit then
      .ok ((c1.toNat - '0'.toNat) * 10 + (c2.toNat - '0'.toNat))
    else if c1 = '+' && c2.isDigit then
      .ok (c2.toNat - '0'.toNat)
    else
      .error "Error parsing filename"
  | _ => .error "Couldn't parse gorpo video part id"

inductive GoProVideoFileType where
  | LowBitrateVideo
  | HighBitrateH265Video
  | HighBitrateH264Video
  | WavAudio
  | ThumbnailPhoto_of_H264Video
  | ThumbnailPhoto_of_H265Video
deriving DecidableEq, Repr

inductive GoProPhotoFileType where
  | JpegPhoto
  | RawPhoto
deriving DecidableEq, Repr

/-- `create_gopro_photo_file`: replace the extension of the reference
photo file in place. -/
def create_gopro_photo_file (input_file : Path) (file_type : GoProPhotoFileType) :
    Except String Path :=
  match input_file.getLast? with
  | none => .error "Couldn't get filename of reference photo file"
  | some input_filename =>
    match rsplitDot input_filename.data with
    | none => .error ("Failed to split gopro style filename from it's extension " ++ input_filename)
    | some (name, _) =>
      if name.length < 2 then
        .error "Input gopro style filename without the extension was not long enough"
      else
        let new_extension := match file_type with
          | .JpegPhoto => "JPG"
          | .RawPhoto => "GPR"
        match parentOpt input_file with
        | none => .error "Couldn't get file's parent directory"
        | some input_dirname =>
          .ok (input_dirname ++ [String.mk name ++ "." ++ new_extension])

def goproPrefixOf : GoProVideoFileType → String
  | .LowBitrateVideo => "GL"
  | .HighBitrateH264Video => "GH"
  | .HighBitrateH265Video => "GX"
  | .WavAudio => "GX"
  | .ThumbnailPhoto_of_H264Video => "GH"
  | .ThumbnailPhoto_of_H265Video => "GX"

def goproExtensionOf : GoProVideoFileType → String
  | .LowBitrateVideo => "LRV"
  | .HighBitrateH264Video => "MP4"
  | .HighBitrateH265Video => "MP4"
  | .WavAudio => "WAV"
  | .ThumbnailPhoto_of_H264Video => "THM"
  | .ThumbnailPhoto_of_H265Video => "THM"

/-- `format!("{:02}", part)` for the part numbers in scope (≤ 99). -/
def partFmt (n : Nat) : String :=
  if n < 10 then "0" ++ toString n else toString n

/-- `create_gopro_video_file`: derive the sibling path
`{prefix}{part:02}{media_id}.{ext}` for the requested file type. -/
def create_gopro_video_file (input_file : Path) (part : Nat)
    (file_type : GoProVideoFileType) : Except String Path :=
  match input_file.getLast? with
  | none => .error "Couldn't get filename of reference photo file"
  | some input_filename =>
    match rsplitDot input_filename.data with
    | none => .error ("Failed to split gopro style filename from it's extension " ++ input_filename)
    | some (name, _) =>
      if name.length < 5 then
        .error "Input gopro style filename without the extension was not long enough"
      else
        let media_id := String.mk (name.drop 4)
        match parentOpt input_file with
        | none => .error "Couldn't get file's parent directory"
        | some input_dirname =>
          .ok (input_dirname ++
            [goproPrefixOf file_type ++ partFmt part ++ media_id ++ "." ++ goproExtensionOf file_type])

structure PartCount where
  existing_parts_count : Nat
  all_parts_count : Nat
deriving DecidableEq, Repr

/-- Loop body of `count_gopro_parts` over the remaining part numbers.
The `part = 0` test is kept exactly as in the source, where it is
unreachable because the loop starts at part 1. -/
def count_gopro_parts_aux (fs : FS) (base_file : Path) (known_missing_files : List Path) :
    List Nat → PartCount → Except String PartCount
  | [], parts => .ok parts
  | part :: rest, parts =>
    match create_gopro_video_file base_file part .HighBitrateH265Video with
    | .error e => .error e
    | .ok file_h265 =>
      match create_gopro_video_file base_file part .HighBitrateH264Video with
      | .error e => .error e
      | .ok file_h264 =>
        if pathExists fs file_h264 || pathExists fs file_h265 then
          count_gopro_parts_aux fs base_file known_missing_files rest
            ⟨parts.existing_parts_count + 1, parts.all_parts_count + 1⟩
        else if file_h264 ∈ known_missing_files || file_h265 ∈ known_missing_files then
          count_gopro_parts_aux fs base_file known_missing_files rest
            ⟨parts.existing_parts_count, parts.all_parts_count + 1⟩
        else if part = 0 then
          .error "Iniital video file not found"
        else
          .ok parts

/-- `count_gopro_parts`. -/
def count_gopro_parts (fs : FS) (base_file : Path) (known_missing_files : List Path) :
    Except String PartCount :=
  count_gopro_parts_aux fs base_file known_missing_files (List.range' 1 99) ⟨0, 0⟩

/-- The GoPro `filetype` extension table. -/
def gopro_filetype (ext : String) : Except String JsonFileInfoTypes :=
  match ext with
  | "THM" => .ok ⟨.FileImagePreview, .ItemVideo⟩
  | "MP4" => .ok ⟨.FileVideo, .ItemVideo⟩
  | "LRV" => .ok ⟨.FileVideoPreview, .ItemVideo⟩
  | "WAV" => .ok ⟨.FileAudio, .ItemVideo⟩
  | "JPG" => .ok ⟨.FileImage, .ItemImage⟩
  | "GPR" => .ok ⟨.FileImageRaw, .ItemImage⟩
  | _ => .error ("unkown file extension " ++ ext ++ " trying to determain file type")

/-- The backwards walk of GoPro `list_thumbnail` over the earlier part
numbers: `true` when every earlier low-bitrate-preview sibling is in
the known-missing set, `false` at the first one that is not. -/
def thmEarlierKm (path : Path) (known_missing_files : List Path) :
    List Nat → Except String Bool
  | [] => .ok true
  | n :: rest =>
    match create_gopro_video_file path n .LowBitrateVideo with
    | .error e => .error e
    | .ok n_file =>
      if n_file ∈ known_missing_files then
        thmEarlierKm path known_missing_files rest
      else
        .ok false

/-- The per-entry visitor of GoPro `list_thumbnail`. -/
def gopro_thumbnail_visitor (_fs : FS) (known_missing_files : List Path)
    (path : Path) (filename : String) (path_str : String) (input_ext : Option String) :
    Except String (Option FileItem) :=
  match input_ext with
  | none => .error "Expected filter_dir to porivde a file extension"
  | some ext =>
    match ext with
    | "THM" => do
      let part_id ← get_gopro_video_part_id filename
      let proceed ← if part_id ≠ 1 then thmEarlierKm path known_missing_files (List.range' 1 (part_id - 1)) else pure true
      if proceed then do
        let info ← gopro_filetype ext
        let ret ← create_simple_file path_str info (some (render (Path.withExtension path "MP4")))
        pure (some ret)
      else
        pure none
    | "JPG" => do
      let info ← gopro_filetype ext
      let it ← create_simple_file path_str info none
      pure (some it)
    | "MP4" => .ok none
    | "GPR" => .ok none
    | "LRV" => .ok none
    | "WAV" => .ok none
    | _ => .error ("Unexpected file " ++ path_str)

/-- GoPro `list_thumbnail`. -/
def gopro_list_thumbnail (fs : FS) (source_media_card : Path)
    (known_missing_files : List Path) : Except String (List FileItem) :=
  filter_dir fs source_media_card (gopro_thumbnail_visitor fs known_missing_files)

/-- The backwards walk of GoPro `list_high_quality`: as in the source,
both derived paths use the H.264 file type. -/
def mp4EarlierKm (path : Path) (known_missing_files : List Path) :
    List Nat → Except String Bool
  | [] => .ok true
  | n :: rest =>
    match create_gopro_video_file path n .HighBitrateH264Video with
    | .error e => .error e
    | .ok h264_file =>
      match create_gopro_video_file path n .HighBitrateH264Video with
      | .error e => .error e
      | .ok h265_file =>
        if !(h265_file ∈ known_missing_files) || !(h264_file ∈ known_missing_files) then
          .ok false
        else
          mp4EarlierKm path known_missing_files rest

/-- The per-entry visitor of GoPro `list_high_quality`. -/
def gopro_high_quality_visitor (fs : FS) (known_missing_files : List Path)
    (path : Path) (filename : String) (path_str : String) (input_ext : Option String) :
    Except String (Option FileItem) :=
  match input_ext with
  | none => .error "Expected filter_dir to porivde a file extension"
  | some ext =>
    match ext with
    | "MP4" => do
      let part_id ← get_gopro_video_part_id filename
      let proceed ← if part_id ≠ 1 then mp4EarlierKm path known_missing_files (List.range' 1 (part_id - 1)) else pure true
      if proceed then do
        let part_count ← count_gopro_parts fs path known_missing_files
        let info ← gopro_filetype ext
        pure (some (create_part_file path_str info part_count.existing_parts_count 1 (some path_str)))
      else
        pure none
    | "GPR" => do
      let info ← gopro_filetype ext
      let it ← create_simple_file path_str info none
      pure (some it)
    | "JPG" => do
      let raw ← create_gopro_photo_file path .RawPhoto
      if !(pathExists fs raw) then do
        let info ← gopro_filetype ext
        let it ← create_simple_file path_str info none
        pure (some it)
      else
        pure none
    | "THM" => .ok none
    | "LRV" => .ok none
    | "WAV" => .ok none
    | _ => .error ("Unexpected file " ++ path_str)

/-- GoPro `list_high_quality`. -/
def gopro_list_high_quality (fs : FS) (source_media_card : Path)
    (known_missing_files : List Path) : Except String (List FileItem) :=
  filter_dir fs source_media_card (gopro_high_quality_visitor fs known_missing_files)

/-- The `GoProVideoFileType` bit set accumulated by `get_related`. -/
structure FoundSet where
  lrv : Bool
  h265 : Bool
  h264 : Bool
  wav : Bool
  thm264 : Bool
  thm265 : Bool
deriving DecidableEq, Repr

def FoundSet.empty : FoundSet := ⟨false, false, false, false, false, false⟩

def FoundSet.insert (s : FoundSet) : GoProVideoFileType → FoundSet
  | .LowBitrateVideo => { s with lrv := true }
  | .HighBitrateH265Video => { s with h265 := true }
  | .HighBitrateH264Video => { s with h264 := true }
  | .WavAudio => { s with wav := true }
  | .ThumbnailPhoto_of_H264Video => { s with thm264 := true }
  | .ThumbnailPhoto_of_H265Video => { s with thm265 := true }

/-- One iteration of the inner file-type loop of GoPro `get_related`. -/
def process_one (fs : FS) (known_missing_files : List Path) (base : Path)
    (part existing_count existing_part_number : Nat)
    (acc : List FileItem × FoundSet) (file_type : GoProVideoFileType) :
    Except String (List FileItem × FoundSet) := do
  let file ← create_gopro_video_file base part file_type
  let extension ← get_extension_str file
  let info ← gopro_filetype extension
  match create_part_file_if_exists fs file info existing_count existing_part_number none with
  | some item => pure (acc.1 ++ [item], acc.2.insert file_type)
  | none =>
    if file ∈ known_missing_files then
      pure (acc.1, acc.2.insert file_type)
    else
      pure acc

/-- The inner file-type loop of GoPro `get_related`, over the array
`[H264, H265, LRV, THM-H265, THM-H264, WAV]` of the source. -/
def process_part (fs : FS) (known_missing_files : List Path) (base : Path)
    (part existing_count existing_part_number : Nat) :
    Except String (List FileItem × FoundSet) := do
  let a ← process_one fs known_missing_files base part existing_count existing_part_number ([], FoundSet.empty) .HighBitrateH264Video
  let b ← process_one fs known_missing_files base part existing_count existing_part_number a .HighBitrateH265Video
  let c ← process_one fs known_missing_files base part existing_count existing_part_number b .LowBitrateVideo
  let d ← process_one fs known_missing_files base part existing_count existing_part_number c .ThumbnailPhoto_of_H265Video
  let e ← process_one fs known_missing_files base part existing_count existing_part_number d .ThumbnailPhoto_of_H264Video
  process_one fs known_missing_files base part existing_count existing_part_number e .WavAudio

/-- The outer part loop of GoPro `get_related`, carrying the
externally-visible part number and the emitted items. -/
def get_related_parts (fs : FS) (known_missing_files : List Path) (base : Path)
    (existing_count : Nat) :
    List Nat → Nat → List FileItem → Except String (List FileItem)
  | [], _, items => .ok items
  | part :: rest, existing_part_number, items =>
    match process_part fs known_missing_files base part existing_count existing_part_number with
    | .error e => .error e
    | .ok (new_items, found_types) =>
      let epn' := if found_types = FoundSet.empty then existing_part_number else existing_part_number + 1
      if (found_types.h264).xor found_types.h265 = false then
        .error "expected either an H265 GX video or an H264 GL video. Got either both or none"
      else if (found_types.thm264).xor found_types.thm265 = false then
        .error "expected either an H265 GX video thumbnail or an H264 GL video thumbnail. Got either both or none"
      else if found_types.lrv = false then
        .error "expected a low bitrate LRV video file"
      else
        get_related_parts fs known_missing_files base existing_count rest epn' (items ++ new_items)

/-- GoPro `get_related`. -/
def gopro_get_related (fs : FS) (source_media_file : Path)
    (known_missing_files : List Path) : Except String (List FileItem) := do
  let ext ← get_extension_str source_media_file
  match ext with
  | "THM" | "MP4" | "WAV" | "LRV" => do
    let part_count ← count_gopro_parts fs source_media_file known_missing_files
    get_related_parts fs known_missing_files source_media_file
      part_count.existing_parts_count (List.range' 1 part_count.all_parts_count) 1 []
  | "JPG" | "GPR" => do
    let f1 ← create_gopro_photo_file source_media_file .JpegPhoto
    let e1 ← get_extension_str f1
    let i1 ← gopro_filetype e1
    let r1 ← create_simple_file_if_exists fs f1 i1 none
    let f2 ← create_gopro_photo_file source_media_file .RawPhoto
    let e2 ← get_extension_str f2
    let i2 ← gopro_filetype e2
    let r2 ← create_simple_file_if_exists fs f2 i2 none
    pure (r1.toList ++ r2.toList)
  | _ => .error "Invalid input file"

/-- A derived GoPro sibling path is accounted for: present on disk or
declared known-missing. -/
def accounted (fs : FS) (known_missing_files : List Path) (p : Path) : Bool :=
  pathExists fs p || p ∈ known_missing_files

/-- The per-part invariant of GoPro `get_related`: exactly one of the
H.264/H.265 videos accounted for, exactly one of the two thumbnails,
and the low-bitrate preview accounted for (no condition on WAV). -/
def gopro_part_invariant (fs : FS) (known_missing_files : List Path)
    (base : Path) (part : Nat) : Bool :=
  match create_gopro_video_file base part .HighBitrateH264Video,
        create_gopro_video_file base part .HighBitrateH265Video,
        create_gopro_video_file base part .ThumbnailPhoto_of_H264Video,
        create_gopro_video_file base part .ThumbnailPhoto_of_H265Video,
        create_gopro_video_file base part .LowBitrateVideo with
  | .ok v264, .ok v265, .ok t264, .ok t265, .ok lrv =>
    ((accounted fs known_missing_files v264).xor (accounted fs known_missing_files v265)) &&
    ((accounted fs known_missing_files t264).xor (accounted fs known_missing_files t265)) &&
    accounted fs known_missing_files lrv
  | _, _, _, _, _ => false

/-! ### generic_single_file_items.rs -/

/-- ASCII model of `str::to_lowercase`. -/
def strToLower (s : String) : String :=
  String.mk (s.data.map Char.toLower)

/-- The generic single-file `filetype` extension table
(case-insensitive). -/
def generic_filetype (ext : String) : Except String JsonFileInfoTypes :=
  match strToLower ext with
  | "jpg" => .ok ⟨.FileImage, .ItemImage⟩
  | "png" => .ok ⟨.FileImage, .ItemImage⟩
  | "mp4" => .ok ⟨.FileVideo, .ItemVideo⟩
  | "wav" => .ok ⟨.FileAudio, .ItemAudio⟩
  | "3gpp" => .ok ⟨.FileAudio, .ItemAudio⟩
  | _ => .error ("unknown file extension " ++ ext ++ " trying to determain file type")

/-- The per-entry visitor of the generic single-file `list_thumbnail`. -/
def generic_thumbnail_visitor (_path : Path) (_filename : String) (path_str : String)
    (input_ext : Option String) : Except String (Option FileItem) :=
  match input_ext with
  | none => .error "Expected filter_dir to provide a file extension"
  | some ext => do
    let types ← generic_filetype ext
    match types.file_type with
    | .FileVideo => pure (some (create_part_file path_str types 1 1 none))
    | .FileAudio => pure (some (create_part_file path_str types 1 1 none))
    | .FileImage => do
      let it ← create_simple_file path_str types none
      pure (some it)
    | _ => .error ("Unrecognised extension '" ++ ext ++ "' in file '" ++ path_str ++ "'")

/-- Generic single-file `list_thumbnail`. -/
def generic_list_thumbnail (fs : FS) (source_media_card : Path)
    (_known_missing_files : List Path) : Except String (List FileItem) :=
  filter_dir fs source_media_card generic_thumbnail_visitor

/-- Generic single-file `list_high_quality` (delegates to
`list_thumbnail`). -/
def generic_list_high_quality (fs : FS) (source_media_card : Path)
    (known_missing_files : List Path) : Except String (List FileItem) :=
  generic_list_thumbnail fs source_media_card known_missing_files

/-- Generic single-file `get_related`. -/
def generic_get_related (_fs : FS) (source_media_file : Path)
    (_known_missing_files : List Path) : Except String (List FileItem) := do
  let extension ← get_extension_str source_media_file
  let types ← generic_filetype extension
  match types.file_type with
  | .FileVideo => pure [create_part_file (render source_media_file) types 1 1 none]
  | .FileImage => do
    let it ← create_simple_file (render source_media_file) types none
    pure [it]
  | _ => .error "unexpected file type"

/-! ### gnss_tracker_generic.rs -/

def gnssFileInfoTypes : JsonFileInfoTypes := ⟨.FileGNSSTrack, .ItemGNSSTrack⟩

/-- The per-entry visitor of the GNSS tracker `list_thumbnail`. -/
def gnss_thumbnail_visitor (fs : FS) (path : Path) (_filename : String)
    (path_str : String) (input_ext : Option String) : Except String (Option FileItem) :=
  match input_ext with
  | none => .error "Expected filter_dir to provide a file extension"
  | some ext =>
    match strToLower ext with
    | "gpx" => (create_simple_file path_str gnssFileInfoTypes none).map some
    | "kml" =>
      if !(pathExists fs (Path.withExtension path "gpx")) then
        (create_simple_file path_str gnssFileInfoTypes none).map some
      else
        .ok none
    | "txt" =>
      if !(pathExists fs (Path.withExtension path "gpx")) &&
         !(pathExists fs (Path.withExtension path "kml")) then
        (create_simple_file path_str gnssFileInfoTypes none).map some
      else
        .ok none
    | _ => .error ("Unrecognised extension '" ++ ext ++ "' in file '" ++ path_str ++ "'")

/-- GNSS tracker `list_thumbnail`. -/
def gnss_list_thumbnail (fs : FS) (source_media_card : Path)
    (_known_missing_files : List Path) : Except String (List FileItem) :=
  filter_dir fs source_media_card (gnss_thumbnail_visitor fs)

/-- GNSS tracker `list_high_quality` (delegates to `list_thumbnail`). -/
def gnss_list_high_quality (fs : FS) (source_media_card : Path)
    (known_missing_files : List Path) : Except String (List FileItem) :=
  gnss_list_thumbnail fs source_media_card known_missing_files

/-- GNSS tracker `get_related`: for each of the three extensions, push
the sibling if it exists, silently skipping the `if let Ok(Some(..))`
mismatches. -/
def gnss_get_related (fs : FS) (source_media_file : Path)
    (_known_missing_files : List Path) : Except String (List FileItem) :=
  .ok (["gpx", "kml", "txt"].foldl
    (fun items extension =>
      match create_simple_file_if_exists fs (Path.withExtension source_media_file extension)
              gnssFileInfoTypes none with
      | .ok (some item) => items ++ [item]
      | _ => items)
    [])

/-! ### sony_ilcem4_1.rs -/

/-- The `DCIM` shape test of Sony `filetype` (the body of the
`grandparent_name == "DCIM"` block of the source). -/
def sony_dcim_branch (parent_folder grandparent_folder : Path)
    (extension file_str : String) (source_media_location : Path) :
    Except String (Option JsonFileInfoTypes) := do
  let parent_folder_name ← match parent_folder.getLast? with
    | none => Except.error "failed to get name of parent folder"
    | some n => Except.ok n
  let up1 ← match parentOpt grandparent_folder with
    | none => Except.error "Traversing path backwards, expected to reach card dir but failed"
    | some p => Except.ok p
  let expected_source_media_location ← match parentOpt up1 with
    | none => Except.error "Traversing path backwards, expected to reach source media dir but failed"
    | some p => Except.ok p
  if strEndsWith parent_folder_name "MSDCF" && expected_source_media_location = source_media_location then
    match extension with
    | "JPG" => pure (some ⟨.FileImage, .ItemImage⟩)
    | "ARW" => pure (some ⟨.FileImageRaw, .ItemImage⟩)
    | _ => Except.error ("unexpected input file extension '" ++ extension ++ "' in file '" ++ file_str ++ "'")
  else
    pure none

/-- The `M4ROOT` shape test of Sony `filetype` (the body of the
`grandparent_name == "M4ROOT"` block of the source). -/
def sony_m4root_branch (parent_folder grandparent_folder : Path)
    (extension file_str : String) (source_media_location : Path) :
    Except String (Option JsonFileInfoTypes) := do
  let private_folder ← match parentOpt grandparent_folder with
    | none => Except.error "Traversing path backwards, expected to reach PRIVATE folder but failed"
    | some p => Except.ok p
  let private_folder_name ← match private_folder.getLast? with
    | none => Except.error "failed to get filename of what's expected to be the PRIVATE folder"
    | some n => Except.ok n
  let up1 ← match parentOpt private_folder with
    | none => Except.error "Traversing path backwards, expected to reach card dir but failed"
    | some p => Except.ok p
  let expected_source_media_location ← match parentOpt up1 with
    | none => Except.error "Traversing path backwards, expected to reach source media dir but failed"
    | some p => Except.ok p
  if private_folder_name = "PRIVATE" && expected_source_media_location = source_media_location then do
    let m4root_subfolder_name ← match parent_folder.getLast? with
      | none => Except.error "failed to get filename of what's expected to be the M4ROOT folder"
      | some n => Except.ok n
    match m4root_subfolder_name with
    | "CLIP" =>
      match extension with
      | "MP4" => pure (some ⟨.FileVideo, .ItemVideo⟩)
      | "XML" => pure (some ⟨.FileMetadata, .ItemVideo⟩)
      | _ => Except.error ("unexpected input file extension '" ++ extension ++ "' in file '" ++ file_str ++ "'")
    | "THMBNL" =>
      match extension with
      | "JPG" => pure (some ⟨.FileImagePreview, .ItemVideo⟩)
      | _ => Except.error ("unexpected input file extension '" ++ extension ++ "' in file '" ++ file_str ++ "'")
    | _ => Except.error ("File '" ++ file_str ++ "' in M4ROOT directory has an invalid subfolder name '" ++ m4root_subfolder_name ++ "'")
  else
    pure none

/-- Sony `filetype`: positional classification by walking the path
upward, with fall-through between the `DCIM` and `M4ROOT` shapes and a
final structural-mismatch error, exactly as in the source. -/
def sony_filetype (file : Path) (source_media_location : Path) :
    Except String JsonFileInfoTypes := do
  let extension ← get_extension_str file
  let file_str := render file
  let parent_folder ← match parentOpt file with
    | none => Except.error "File has no parent directory"
    | some p => Except.ok p
  let grandparent_folder ← match parentOpt parent_folder with
    | none => Except.error "File has no grandparent directory"
    | some p => Except.ok p
  let grandparent_name ← match grandparent_folder.getLast? with
    | none => Except.error "Failed to get name of grandparent folder"
    | some n => Except.ok n
  let dcimResult : Option JsonFileInfoTypes ←
    if grandparent_name = "DCIM" then
      sony_dcim_branch parent_folder grandparent_folder extension file_str source_media_location
    else
      pure none
  match dcimResult with
  | some r => pure r
  | none => do
    let m4Result : Option JsonFileInfoTypes ←
      if grandparent_name = "M4ROOT" then
        sony_m4root_branch parent_folder grandparent_folder extension file_str source_media_location
      else
        pure none
    match m4Result with
    | some r => pure r
    | none => Except.error ("File path not in expected directory structure '" ++ file_str ++ "'")

/-- The per-entry visitor of the Sony `list_thumbnail` album scan. -/
def sony_thumbnail_image_visitor (fs : FS) (source_media_location : Path)
    (path : Path) (_filename : String) (path_str : String) (ext : Option String) :
    Except String (Option FileItem) :=
  match ext with
  | some "ARW" =>
    if !(pathExists fs (Path.withExtension path "JPG")) then do
      let info ← sony_filetype path source_media_location
      (create_simple_file path_str info none).map some
    else
      .ok none
  | some "JPG" => do
    let info ← sony_filetype path source_media_location
    (create_simple_file path_str info none).map some
  | _ => .error ("Unexpected file " ++ path_str)

/-- The per-entry visitor of the Sony `list_thumbnail` THMBNL scan. -/
def sony_thumbnail_video_visitor (source_media_location : Path)
    (path : Path) (_filename : String) (path_str : String) (ext : Option String) :
    Except String (Option FileItem) :=
  match ext with
  | some "JPG" => do
    let info ← sony_filetype path source_media_location
    pure (some (create_part_file path_str info 1 1 none))
  | _ => .error ("Unexpected file " ++ path_str)

/-- The album fold shared by the two Sony listings. -/
def sonyAlbumFold (fs : FS)
    (visitor : Path → String → String → Option String → Except String (Option FileItem)) :
    List Path → List FileItem → Except String (List FileItem)
  | [], files => .ok files
  | imagedir :: rest, files =>
    match filter_dir fs imagedir visitor with
    | .error e => .error e
    | .ok image_set => sonyAlbumFold fs visitor rest (files ++ image_set)

/-- Sony `list_thumbnail`. -/
def sony_list_thumbnail (fs : FS) (source_media_location : Path)
    (source_media_card : Path) (_known_missing_files : List Path) :
    Except String (List FileItem) := do
  let dcim := source_media_card ++ ["DCIM"]
  let files ←
    if pathExists fs dcim then
      sonyAlbumFold fs (sony_thumbnail_image_visitor fs source_media_location)
        (dirChildren fs dcim) []
    else
      pure []
  let videos ← filter_dir fs (source_media_card ++ ["PRIVATE", "M4ROOT", "THMBNL"])
    (sony_thumbnail_video_visitor source_media_location)
  pure (files ++ videos)

/-- The per-entry visitor of the Sony `list_high_quality` album scan. -/
def sony_high_quality_image_visitor (fs : FS) (source_media_location : Path)
    (path : Path) (_filename : String) (path_str : String) (ext : Option String) :
    Except String (Option FileItem) :=
  match ext with
  | some "JPG" =>
    if !(pathExists fs (Path.withExtension path "ARW")) then do
      let info ← sony_filetype path source_media_location
      (create_simple_file path_str info none).map some
    else
      .ok none
  | some "ARW" => do
    let info ← sony_filetype path source_media_location
    (create_simple_file path_str info none).map some
  | _ => .error ("Unexpected file " ++ path_str)

/-- The per-entry visitor of the Sony `list_high_quality` CLIP scan. -/
def sony_high_quality_video_visitor (source_media_location : Path)
    (path : Path) (_filename : String) (path_str : String) (ext : Option String) :
    Except String (Option FileItem) :=
  match ext with
  | some "MP4" => do
    let info ← sony_filetype path source_media_location
    pure (some (create_part_file path_str info 1 1 none))
  | some "XML" => .ok none
  | _ => .error ("Unexpected file " ++ path_str)

/-- Sony `list_high_quality` (the source joins the card directory with
the absolute DCIM path, which yields the DCIM path itself). -/
def sony_list_high_quality (fs : FS) (source_media_location : Path)
    (source_media_card : Path) (_known_missing_files : List Path) :
    Except String (List FileItem) := do
  let dcim := source_media_card ++ ["DCIM"]
  let files ←
    if pathExists fs dcim then
      sonyAlbumFold fs (sony_high_quality_image_visitor fs source_media_location)
        (dirChildren fs dcim) []
    else
      pure []
  let videos ← filter_dir fs (source_media_card ++ ["PRIVATE", "M4ROOT", "CLIP"])
    (sony_high_quality_video_visitor source_media_location)
  pure (files ++ videos)

inductive VideoFiles where
  | Thumbnail
  | Video
  | Metadata
deriving DecidableEq, Repr

/-- Sony `get_video_id`: the four characters at byte offsets 1..=4 of
the file name (panics in Rust when out of range; in scope the callers
guarantee classified video-family names, which are long enough). -/
def get_video_id (file : Path) (_file_type : VideoFiles) : Except String String :=
  match file.getLast? with
  | none => .error "Couldn't get filename of video file"
  | some input_filename => .ok (String.mk ((input_filename.data.drop 1).take 4))

/-- Sony `create_video_file`. -/
def create_video_file (input_file : Path) (id : String) (file_type : VideoFiles) :
    Except String Path := do
  let up1 ← match parentOpt input_file with
    | none => Except.error "Traversing path backwards, expected to reach m4root subfolder but failed"
    | some p => Except.ok p
  let m4root ← match parentOpt up1 with
    | none => Except.error "Traversing path backwards, expected to reach m4root dir but failed"
    | some p => Except.ok p
  match file_type with
  | .Video => pure (m4root ++ ["CLIP", "C" ++ id ++ ".MP4"])
  | .Metadata => pure (m4root ++ ["CLIP", "C" ++ id ++ "M01.XML"])
  | .Thumbnail => pure (m4root ++ ["THMBNL", "C" ++ id ++ "T01.JPG"])

/-- Sony `get_related`. -/
def sony_get_related (fs : FS) (source_media_location : Path)
    (source_media_file : Path) (known_missing_files : List Path) :
    Except String (List FileItem) := do
  let input_file_types ← sony_filetype source_media_file source_media_location
  match input_file_types.item_type with
  | .ItemImage => do
    let arw_path := Path.withExtension source_media_file "ARW"
    let jpg_path := Path.withExtension source_media_file "JPG"
    let i1 ← sony_filetype arw_path source_media_location
    let r1 ← create_simple_file_if_exists fs arw_path i1 none
    let i2 ← sony_filetype jpg_path source_media_location
    let r2 ← create_simple_file_if_exists fs jpg_path i2 none
    pure (r1.toList ++ r2.toList)
  | .ItemVideo => do
    let video_type ← match input_file_types.file_type with
      | .FileVideo => pure VideoFiles.Video
      | .FileImagePreview => pure VideoFiles.Thumbnail
      | .FileMetadata => pure VideoFiles.Metadata
      | _ => Except.error "Internal error"
    let video_id ← get_video_id source_media_file video_type
    let f1 ← create_video_file source_media_file video_id .Metadata
    let i1 ← sony_filetype f1 source_media_location
    let r1 ← create_part_file_that_exists fs f1 i1 1 1 none known_missing_files
    let f2 ← create_video_file source_media_file video_id .Video
    let i2 ← sony_filetype f2 source_media_location
    let r2 ← create_part_file_that_exists fs f2 i2 1 1 none known_missing_files
    let f3 ← create_video_file source_media_file video_id .Thumbnail
    let i3 ← sony_filetype f3 source_media_location
    let r3 ← create_part_file_that_exists fs f3 i3 1 1 none known_missing_files
    pure (r1.toList ++ r2.toList ++ r3.toList)
  | _ => .error "Internal error"

/-- The FileItem the GNSS handler builds for an existing sibling. -/
def gnssTrackItem (p : Path) : FileItem :=
  { file_path := render p
    file_type := "gnss-track"
    item_type := "gnss-track"
    part_count := none
    part_num := none
    metadata_file := none }

/-! ### Infrastructure lemmas: the directory scan -/

theorem Except.mapError_ok_iff {α β γ : Type} {e : Except α β} {f : α → γ} {a : β} :
    e.mapError f = .ok a ↔ e = .ok a := by
  cases e <;> simp [Except.mapError]

theorem filterDirAux_ok_mem {f : Path → Except String (Option FileItem)}
    {ps : List Path} {its : List FileItem} (h : filterDirAux f ps = .ok its)
    {it : FileItem} (hm : it ∈ its) : ∃ p ∈ ps, f p = .ok (some it) := by
  induction ps generalizing its with
  | nil =>
    simp only [filterDirAux, Except.ok.injEq] at h
    subst h
    cases hm
  | cons p ps ih =>
    simp only [filterDirAux] at h
    cases hf : f p with
    | error e => rw [hf] at h; cases h
    | ok r =>
      rw [hf] at h
      cases r with
      | none =>
        obtain ⟨q, hq, hfq⟩ := ih h hm
        exact ⟨q, List.mem_cons_of_mem _ hq, hfq⟩
      | some it' =>
        cases hrec : filterDirAux f ps with
        | error e => rw [hrec] at h; cases h
        | ok its' =>
          rw [hrec] at h
          cases h
          rcases List.mem_cons.mp hm with h1 | h2
          · exact ⟨p, List.mem_cons_self _ _, by rw [hf, h1]⟩
          · obtain ⟨q, hq, hfq⟩ := ih hrec h2
            exact ⟨q, List.mem_cons_of_mem _ hq, hfq⟩

theorem filterDirAux_ok_forward {f : Path → Except String (Option FileItem)}
    {ps : List Path} {its : List FileItem} (h : filterDirAux f ps = .ok its)
    {p : Path} (hp : p ∈ ps) {it : FileItem} (hf : f p = .ok (some it)) : it ∈ its := by
  induction ps generalizing its with
  | nil => cases hp
  | cons q ps ih =>
    simp only [filterDirAux] at h
    rcases List.mem_cons.mp hp with h1 | h2
    · subst h1
      rw [hf] at h
      cases hrec : filterDirAux f ps with
      | error e => rw [hrec] at h; cases h
      | ok its' =>
        rw [hrec] at h
        cases h
        exact List.mem_cons_self _ _
    · cases hfq : f q with
      | error e => rw [hfq] at h; cases h
      | ok r =>
        rw [hfq] at h
        cases r with
        | none => exact ih h h2
        | some it' =>
          cases hrec : filterDirAux f ps with
          | error e => rw [hrec] at h; cases h
          | ok its' =>
            rw [hrec] at h
            cases h
            exact List.mem_cons_of_mem _ (ih hrec h2)

theorem filterDirAux_ok_all {f : Path → Except String (Option FileItem)}
    {ps : List Path} {its : List FileItem} (h : filterDirAux f ps = .ok its)
    {p : Path} (hp : p ∈ ps) : ∃ r, f p = .ok r := by
  induction ps generalizing its with
  | nil => cases hp
  | cons q ps ih =>
    simp only [filterDirAux] at h
    cases hfq : f q with
    | error e => rw [hfq] at h; cases h
    | ok r =>
      rw [hfq] at h
      rcases List.mem_cons.mp hp with h1 | h2
      · exact ⟨r, by rw [h1, hfq]⟩
      · cases r with
        | none => exact ih h h2
        | some it' =>
          cases hrec : filterDirAux f ps with
          | error e => rw [hrec] at h; cases h
          | ok its' => exact ih hrec h2

theorem filter_dir_ok_elim {fs : FS} {dir : Path}
    {g : Path → String → String → Option String → Except String (Option FileItem)}
    {its : List FileItem} (h : filter_dir fs dir g = .ok its) :
    pathExists fs dir = true ∧ filterDirAux (entryVisit g) (dirChildren fs dir) = .ok its := by
  by_cases hd : pathExists fs dir
  · refine ⟨hd, ?_⟩
    rw [filter_dir, if_pos hd] at h
    exact Except.mapError_ok_iff.mp h
  · rw [filter_dir, if_neg hd] at h
    cases h

theorem render_append (p : Path) (n : String) :
    render (p ++ [n]) = render p ++ "/" ++ n := by
  simp [render, List.foldl_append]

theorem getLast?_concat (p : Path) (n : String) : (p ++ [n]).getLast? = some n := by
  simp [List.getLast?_concat]

theorem entryVisit_child
    {g : Path → String → String → Option String → Except String (Option FileItem)}
    (d : Path) (n : String) :
    entryVisit g (d ++ [n]) = g (d ++ [n]) n (render (d ++ [n])) (extName n) := by
  rw [entryVisit, getLast?_concat]

theorem dirChildren_shape {fs : FS} {d : Path} {p : Path} (h : p ∈ dirChildren fs d) :
    ∃ n, p = d ++ [n] ∧ n ∈ dirChildNames fs d := by
  obtain ⟨n, hn, hp⟩ := List.mem_map.mp h
  exact ⟨n, hp.symm, hn⟩

/-! ### Infrastructure lemmas: children, goodness and rendering -/

theorem dedupFirst_subset {seen : List String} {xs : List String} {x : String}
    (h : x ∈ dedupFirst seen xs) : x ∈ xs := by
  induction xs generalizing seen with
  | nil => cases h
  | cons y ys ih =>
    rw [dedupFirst] at h
    by_cases hy : y ∈ seen
    · rw [if_pos hy] at h
      exact List.mem_cons_of_mem _ (ih h)
    · rw [if_neg hy] at h
      rcases List.mem_cons.mp h with h1 | h2
      · exact h1 ▸ List.mem_cons_self _ _
      · exact List.mem_cons_of_mem _ (ih h2)

theorem mem_dedupFirst_of_mem {seen : List String} {xs : List String} {x : String}
    (h : x ∈ xs) : x ∈ seen ∨ x ∈ dedupFirst seen xs := by
  induction xs generalizing seen with
  | nil => cases h
  | cons y ys ih =>
    rw [dedupFirst]
    by_cases hy : y ∈ seen
    · rw [if_pos hy]
      rcases List.mem_cons.mp h with h1 | h2
      · exact Or.inl (h1 ▸ hy)
      · exact ih h2
    · rw [if_neg hy]
      rcases List.mem_cons.mp h with h1 | h2
      · exact Or.inr (h1 ▸ List.mem_cons_self _ _)
      · rcases @ih (y :: seen) h2 with hs | hd
        · rcases List.mem_cons.mp hs with h3 | h4
          · exact Or.inr (h3 ▸ List.mem_cons_self _ _)
          · exact Or.inl h4
        · exact Or.inr (List.mem_cons_of_mem _ hd)

theorem pathLe_child {d : Path} {q : Path} {n : String}
    (h1 : pathLe d q = true) (h2 : (q.drop d.length).head? = some n) :
    pathLe (d ++ [n]) q = true := by
  induction d generalizing q with
  | nil =>
    cases q with
    | nil => cases h2
    | cons b bs =>
      simp only [List.drop, List.head?] at h2
      cases h2
      simp [pathLe]
  | cons a as ih =>
    cases q with
    | nil => cases h1
    | cons b bs =>
      simp only [pathLe, Bool.and_eq_true, decide_eq_true_eq] at h1
      simp only [List.length_cons, List.drop] at h2
      simpa [pathLe, h1.1] using ih h1.2 h2

theorem dirChildNames_source {fs : FS} {d : Path} {n : String}
    (h : n ∈ dirChildNames fs d) :
    ∃ q ∈ fs, pathLe d q = true ∧ (q.drop d.length).head? = some n := by
  have h1 := dedupFirst_subset h
  obtain ⟨q, hq, hval⟩ := List.mem_filterMap.mp h1
  by_cases hle : pathLe d q
  · rw [if_pos hle] at hval
    exact ⟨q, hq, hle, hval⟩
  · rw [if_neg hle] at hval
    cases hval

theorem dirChildren_exists {fs : FS} {d : Path} {p : Path}
    (h : p ∈ dirChildren fs d) : pathExists fs p = true := by
  obtain ⟨n, rfl, hn⟩ := dirChildren_shape h
  obtain ⟨q, hq, hle, hh⟩ := dirChildNames_source hn
  refine List.any_eq_true.mpr ⟨q, hq, ?_⟩
  exact pathLe_child hle hh

theorem head?_drop_mem {l : List String} {k : Nat} {n : String}
    (h : (l.drop k).head? = some n) : n ∈ l := by
  have h1 : n ∈ l.drop k := List.mem_of_mem_head? (by simp [h])
  exact List.mem_of_mem_drop h1

theorem dirChildNames_good {fs : FS} {d : Path} {n : String}
    (hfs : goodFS fs) (h : n ∈ dirChildNames fs d) : goodName n := by
  obtain ⟨q, hq, _, hh⟩ := dirChildNames_source h
  exact hfs q hq n (head?_drop_mem hh)

theorem dirChildren_good {fs : FS} {d : Path} {p : Path}
    (hfs : goodFS fs) (hd : goodPath d) (h : p ∈ dirChildren fs d) : goodPath p := by
  obtain ⟨n, rfl, hn⟩ := dirChildren_shape h
  intro c hc
  rcases List.mem_append.mp hc with h1 | h2
  · exact hd c h1
  · rcases List.mem_singleton.mp h2 with rfl
    exact dirChildNames_good hfs hn

theorem render_data_foldl (p : Path) (s : String) :
    (p.foldl (fun acc c => acc ++ "/" ++ c) s).data =
      p.foldl (fun acc c => acc ++ '/' :: c.data) s.data := by
  induction p generalizing s with
  | nil => rfl
  | cons a as ih =>
    simp only [List.foldl_cons, ih]
    congr 1
    simp [String.data_append]

theorem foldl_char_append_eq_join (p : List String) (acc : List Char) :
    p.foldl (fun a c => a ++ '/' :: c.data) acc =
      acc ++ (p.map (fun c => '/' :: c.data)).flatten := by
  induction p generalizing acc with
  | nil => simp
  | cons a as ih =>
    simp [List.foldl_cons, ih, List.append_assoc]

theorem slashfree_append_inj :
    ∀ (a b s t : List Char), '/' ∉ a → '/' ∉ b →
    (s = [] ∨ ∃ s', s = '/' :: s') → (t = [] ∨ ∃ t', t = '/' :: t') →
    a ++ s = b ++ t → a = b ∧ s = t := by
  intro a
  induction a with
  | nil =>
    intro b s t _ hb hs ht h
    cases b with
    | nil => exact ⟨rfl, h⟩
    | cons c b' =>
      exfalso
      simp only [List.nil_append, List.cons_append] at h
      rcases hs with rfl | ⟨s', rfl⟩
      · cases h
      · cases h
        exact hb (List.mem_cons_self _ _)
  | cons c a' ih =>
    intro b s t ha hb hs ht h
    cases b with
    | nil =>
      exfalso
      simp only [List.cons_append, List.nil_append] at h
      rcases ht with rfl | ⟨t', rfl⟩
      · cases h
      · cases h
        exact ha (List.mem_cons_self _ _)
    | cons d b' =>
      simp only [List.cons_append, List.cons.injEq] at h
      obtain ⟨rfl, h2⟩ := h
      have := ih b' s t (fun hm => ha (List.mem_cons_of_mem _ hm))
        (fun hm => hb (List.mem_cons_of_mem _ hm)) hs ht h2
      exact ⟨by rw [this.1], this.2⟩

theorem join_slash_shape (l : List (List Char)) :
    (l.map (fun a => '/' :: a)).flatten = [] ∨
      ∃ r, (l.map (fun a => '/' :: a)).flatten = '/' :: r := by
  cases l with
  | nil => exact Or.inl rfl
  | cons a as => exact Or.inr ⟨a ++ (as.map (fun a => '/' :: a)).flatten, by simp⟩

theorem join_slash_inj :
    ∀ (p q : List (List Char)), (∀ a ∈ p, '/' ∉ a) → (∀ a ∈ q, '/' ∉ a) →
    (p.map (fun a => '/' :: a)).flatten = (q.map (fun a => '/' :: a)).flatten → p = q := by
  intro p
  induction p with
  | nil =>
    intro q _ _ h
    cases q with
    | nil => rfl
    | cons b q' => simp at h
  | cons a p' ih =>
    intro q hp hq h
    cases q with
    | nil => simp at h
    | cons b q' =>
      simp only [List.map_cons, List.flatten_cons, List.cons_append, List.cons.injEq] at h
      have h2 := slashfree_append_inj a b _ _
        (hp a (List.mem_cons_self _ _)) (hq b (List.mem_cons_self _ _))
        (join_slash_shape p') (join_slash_shape q') h.2
      have h3 := ih q' (fun x hx => hp x (List.mem_cons_of_mem _ hx))
        (fun x hx => hq x (List.mem_cons_of_mem _ hx)) h2.2
      rw [h2.1, h3]

theorem render_inj {p q : Path} (hp : goodPath p) (hq : goodPath q)
    (h : render p = render q) : p = q := by
  have hd : (render p).data = (render q).data := by rw [h]
  rw [render, render, render_data_foldl, render_data_foldl] at hd
  simp only [String.data] at hd
  rw [foldl_char_append_eq_join, foldl_char_append_eq_join] at hd
  simp only [List.nil_append] at hd
  have hmap : p.map (fun c => '/' :: c.data) = (p.map String.data).map (fun a => '/' :: a) := by
    simp [List.map_map]
  have hmap' : q.map (fun c => '/' :: c.data) = (q.map String.data).map (fun a => '/' :: a) := by
    simp [List.map_map]
  rw [hmap, hmap'] at hd
  have h2 : p.map String.data = q.map String.data := by
    refine join_slash_inj _ _ ?_ ?_ hd
    · intro a ha
      obtain ⟨c, hc, rfl⟩ := List.mem_map.mp ha
      exact (hp c hc).2
    · intro a ha
      obtain ⟨c, hc, rfl⟩ := List.mem_map.mp ha
      exact (hq c hc).2
  have hinj : Function.Injective String.data := by
    intro a b hab
    exact String.ext hab
  exact List.map_injective_iff.mpr hinj h2

/-! ### Claim C1 -/

/-- C1: the claim states that when neither the part-1 H.264 nor H.265
high-bitrate sibling exists on disk and neither is known-missing,
`count_gopro_parts` fails.  The code instead returns a successful
zero-part count: the guard that should raise the "Iniital video file
not found" error tests `part == 0`, which is unreachable since the loop
starts at part 1.  This theorem evaluates the embedded code at such an
input: the base file `/card/GH01AB.MP4` over an empty filesystem and an
empty known-missing set, where the call succeeds with `(0, 0)`. -/
theorem C1_count_gopro_parts_missing_part1_returns_ok_zero :
    count_gopro_parts [] ["card", "GH01AB.MP4"] [] =
      .ok ⟨0, 0⟩ := by
  rfl

/-! ### Claim C2 -/

/-- C2: the claim states that a THM file whose earlier parts' LRV
siblings are all known-missing (vacuously so for a part-1 THM) is
emitted by GoPro `list_thumbnail` as a simple image-preview FileItem
pointing at its MP4.  On the code, every qualifying THM is passed to
`create_simple_file` with the THM classification `(image-preview,
video-item)`, and that builder rejects every video-item simple file, so
the whole listing fails with the builder's internal error instead of
emitting the item.  This theorem evaluates the embedded code on a card
directory containing exactly the qualifying part-1 THM
`/c/GH01AB.THM`. -/
theorem C2_gopro_list_thumbnail_qualifying_thm_fails :
    gopro_list_thumbnail [["c", "GH01AB.THM"]] ["c"] [] =
      .error "Error filtering dir '/c': Internal error: Tried to generate simple file for video item" := by
  rfl

/-! ### Claim C10 -/

/-- C10: GNSS `get_related` never fails; for every input path and every
known-missing set it returns exactly the items for the same-stem
sibling paths with extensions gpx, kml, txt that exist on disk, in that
order, without validating the input file itself. -/
theorem C10_gnss_get_related_total (fs : FS) (source_media_file : Path)
    (known_missing_files : List Path) :
    gnss_get_related fs source_media_file known_missing_files =
      .ok ((["gpx", "kml", "txt"]).filterMap (fun e =>
        if pathExists fs (Path.withExtension source_media_file e) then
          some (gnssTrackItem (Path.withExtension source_media_file e))
        else
          none)) := by
  by_cases h1 : pathExists fs (Path.withExtension source_media_file "gpx") <;>
    by_cases h2 : pathExists fs (Path.withExtension source_media_file "kml") <;>
      by_cases h3 : pathExists fs (Path.withExtension source_media_file "txt") <;>
        simp [gnss_get_related, create_simple_file_if_exists, create_simple_file,
          create_simple_file_unchecked, gnssFileInfoTypes, gnssTrackItem, Except.map,
          fileTypeStr, itemTypeStr, h1, h2, h3]

/-- C10 witness: the equation applied at a concrete input. -/
theorem C10_gnss_get_related_total_witness :
    gnss_get_related [["c", "t.gpx"], ["c", "t.txt"]] ["c", "t.kml"] [] =
      .ok [gnssTrackItem ["c", "t.gpx"], gnssTrackItem ["c", "t.txt"]] := by
  rw [C10_gnss_get_related_total]
  rfl

/-! ### Claim C6 -/

/-- C6 counterexample: the claim includes wav/3gpp (audio) among the
recognized extensions for which `get_related` returns the single
FileItem, but the audio arm of the generic handler's `get_related`
falls through to the "unexpected file type" error: on input
`/c/a.wav` the call fails instead of returning an audio item. -/
theorem C6_counterexample_generic_get_related_wav_fails :
    generic_get_related [] ["c", "a.wav"] [] = .error "unexpected file type" := by
  rfl

/-- C6 amended: for an input file whose extension lowercases to
jpg/png/mp4, the generic handler's `get_related` returns exactly one
FileItem — the input file itself — typed by the extension table
(jpg/png: image, mp4: video); wav/3gpp inputs fail even though the
listing operations recognize them. -/
theorem C6_generic_get_related_image_video (fs : FS) (source_media_file : Path)
    (known_missing_files : List Path) (ext : String)
    (hext : get_extension_str source_media_file = .ok ext)
    (hcase : strToLower ext = "jpg" ∨ strToLower ext = "png" ∨ strToLower ext = "mp4") :
    ∃ it, generic_get_related fs source_media_file known_missing_files = .ok [it] ∧
      it.file_path = render source_media_file ∧
      ((strToLower ext = "jpg" ∨ strToLower ext = "png") →
        it.file_type = "image" ∧ it.item_type = "image") ∧
      (strToLower ext = "mp4" → it.file_type = "video" ∧ it.item_type = "video") := by
  rcases hcase with h | h | h
  · refine ⟨⟨render source_media_file, "image", "image", none, none, none⟩, ?_, rfl,
      fun _ => ⟨rfl, rfl⟩, fun hm => ?_⟩
    · simp [generic_get_related, hext, generic_filetype, h, create_simple_file,
        create_simple_file_unchecked, fileTypeStr, itemTypeStr, bind, Except.bind,
        pure, Except.pure, Except.map]
    · rw [h] at hm; exact absurd hm (by decide)
  · refine ⟨⟨render source_media_file, "image", "image", none, none, none⟩, ?_, rfl,
      fun _ => ⟨rfl, rfl⟩, fun hm => ?_⟩
    · simp [generic_get_related, hext, generic_filetype, h, create_simple_file,
        create_simple_file_unchecked, fileTypeStr, itemTypeStr, bind, Except.bind,
        pure, Except.pure, Except.map]
    · rw [h] at hm; exact absurd hm (by decide)
  · refine ⟨⟨render source_media_file, "video", "video", some 1, some 1, none⟩, ?_, rfl,
      fun hm => ?_, fun _ => ⟨rfl, rfl⟩⟩
    · simp [generic_get_related, hext, generic_filetype, h, create_part_file,
        create_simple_file_unchecked, fileTypeStr, itemTypeStr, bind, Except.bind,
        pure, Except.pure]
    · rcases hm with hm | hm <;> (rw [h] at hm; exact absurd hm (by decide))

/-- C6 witness: the amended theorem applied to `/c/a.jpg`. -/
theorem C6_generic_get_related_image_video_witness :
    ∃ it, generic_get_related [] ["c", "a.jpg"] [] = .ok [it] ∧
      it.file_path = render ["c", "a.jpg"] ∧
      ((strToLower "jpg" = "jpg" ∨ strToLower "jpg" = "png") →
        it.file_type = "image" ∧ it.item_type = "image") ∧
      (strToLower "jpg" = "mp4" → it.file_type = "video" ∧ it.item_type = "video") :=
  C6_generic_get_related_image_video [] ["c", "a.jpg"] [] "jpg" (by rfl) (Or.inl (by rfl))

/-! ### Claim C9 -/

/-- The per-entry visitor of GoPro `list_thumbnail` only ever emits
image items: the THM arm dies inside `create_simple_file` (video item
kind), and the JPG arm emits an image/image record. -/
theorem gopro_thumbnail_visitor_item_type {fs : FS} {km : List Path} {p : Path}
    {fn path_str : String} {eo : Option String} {it : FileItem}
    (h : gopro_thumbnail_visitor fs km p fn path_str eo = .ok (some it)) :
    it.item_type = "image" := by
  cases eo with
  | none => cases h
  | some ext =>
    unfold gopro_thumbnail_visitor at h
    simp only at h
    split at h
    · -- THM arm
      simp only [bind, Except.bind] at h
      cases hpid : get_gopro_video_part_id fn with
      | error e => rw [hpid] at h; cases h
      | ok pid =>
        rw [hpid] at h
        dsimp only at h
        by_cases hp : pid ≠ 1
        · rw [if_pos hp] at h
          cases ht : thmEarlierKm p km (List.range' 1 (pid - 1)) with
          | error e => rw [ht] at h; cases h
          | ok b =>
            rw [ht] at h
            dsimp only at h
            cases b
            · simp only [Bool.false_eq_true, if_false, pure, Except.pure] at h
              cases h
            · simp [gopro_filetype, create_simple_file, bind, Except.bind, pure, Except.pure] at h
        · rw [if_neg hp] at h
          simp [gopro_filetype, create_simple_file, bind, Except.bind, pure, Except.pure] at h
    · -- JPG arm
      simp only [bind, Except.bind, gopro_filetype, create_simple_file,
        create_simple_file_unchecked, fileTypeStr, itemTypeStr, pure, Except.pure] at h
      rw [if_neg (by decide)] at h
      simp only [Except.ok.injEq, Option.some.injEq] at h
      rw [← h]
    · cases h
    · cases h
    · cases h
    · cases h
    · cases h

/-- C9: `create_simple_file` fails for the video item kind and
otherwise yields a FileItem with both part fields absent; consequently
a successful GoPro `list_thumbnail` never emits a part-less FileItem of
the video item kind. -/
theorem C9_create_simple_file_video_guard :
    (∀ (file_path : String) (info : JsonFileInfoTypes) (metadata_file : Option String),
      info.item_type = ItemType.ItemVideo →
        create_simple_file file_path info metadata_file =
          .error "Internal error: Tried to generate simple file for video item") ∧
    (∀ (file_path : String) (info : JsonFileInfoTypes) (metadata_file : Option String),
      info.item_type ≠ ItemType.ItemVideo →
        ∃ it, create_simple_file file_path info metadata_file = .ok it ∧
          it.part_count = none ∧ it.part_num = none) ∧
    (∀ (fs : FS) (card : Path) (km : List Path) (items : List FileItem),
      gopro_list_thumbnail fs card km = .ok items →
        ∀ it ∈ items, it.part_count = none → it.item_type ≠ "video") := by
  refine ⟨?_, ?_, ?_⟩
  · intro fp info m h
    rw [create_simple_file, if_pos h]
  · intro fp info m h
    exact ⟨_, by rw [create_simple_file, if_neg h], rfl, rfl⟩
  · intro fs card km items h it hm _
    obtain ⟨_, haux⟩ := filter_dir_ok_elim h
    obtain ⟨p, hp, hf⟩ := filterDirAux_ok_mem haux hm
    obtain ⟨n, rfl, _⟩ := dirChildren_shape hp
    rw [entryVisit_child] at hf
    rw [gopro_thumbnail_visitor_item_type hf]
    decide

/-- C9 witness: the three parts of the guard theorem applied at
concrete inputs (a video-item record, an image-item record, and a
one-JPG card listing). -/
theorem C9_create_simple_file_video_guard_witness :
    create_simple_file "/c/x" ⟨FileType.FileImagePreview, ItemType.ItemVideo⟩ none =
      .error "Internal error: Tried to generate simple file for video item" ∧
    (∃ it, create_simple_file "/c/x" ⟨FileType.FileImage, ItemType.ItemImage⟩ none = .ok it ∧
      it.part_count = none ∧ it.part_num = none) ∧
    (∀ it ∈ [FileItem.mk "/c/GOPR0001.JPG" "image" "image" none none none],
      it.part_count = none → it.item_type ≠ "video") :=
  ⟨C9_create_simple_file_video_guard.1 _ _ _ rfl,
   C9_create_simple_file_video_guard.2.1 _ _ _ (by decide),
   fun it hm hpc =>
     C9_create_simple_file_video_guard.2.2 [["c", "GOPR0001.JPG"]] ["c"] [] _ (by rfl) it hm hpc⟩

/-! ### Claim C8 -/

theorem render_child_inj {d : Path} {n1 n2 : String}
    (h : render (d ++ [n1]) = render (d ++ [n2])) : n1 = n2 := by
  rw [render_append, render_append] at h
  have hd : ((render d ++ "/") ++ n1).data = ((render d ++ "/") ++ n2).data := by
    simpa [String.append_assoc] using congrArg String.data h
  rw [String.data_append, String.data_append] at hd
  exact String.ext (List.append_cancel_left hd)

/-- The outcome of the GNSS per-entry visitor on a successful entry:
the extension is one of gpx/kml/txt (case-insensitively) and the
emitted value follows the preference order. -/
theorem gnss_visitor_cases {fs : FS} {p : Path} {fn path_str : String}
    {eo : Option String} {r : Option FileItem}
    (h : gnss_thumbnail_visitor fs p fn path_str eo = .ok r) :
    ∃ ext, eo = some ext ∧
      ((strToLower ext = "gpx" ∧
          r = some ⟨path_str, "gnss-track", "gnss-track", none, none, none⟩) ∨
       (strToLower ext = "kml" ∧
          r = if pathExists fs (Path.withExtension p "gpx") then none
              else some ⟨path_str, "gnss-track", "gnss-track", none, none, none⟩) ∨
       (strToLower ext = "txt" ∧
          r = if pathExists fs (Path.withExtension p "gpx") || pathExists fs (Path.withExtension p "kml") then none
              else some ⟨path_str, "gnss-track", "gnss-track", none, none, none⟩)) := by
  cases eo with
  | none => cases h
  | some ext =>
    refine ⟨ext, rfl, ?_⟩
    unfold gnss_thumbnail_visitor at h
    simp only at h
    split at h
    · left
      constructor
      · assumption
      · simp only [create_simple_file, gnssFileInfoTypes, Except.map] at h
        rw [if_neg (by decide)] at h
        cases h
        rfl
    · right; left
      constructor
      · assumption
      · by_cases hg : pathExists fs (Path.withExtension p "gpx")
        · rw [if_pos hg]
          simp only [hg, Bool.not_true] at h
          rw [if_neg (by decide)] at h
          cases h
          rfl
        · rw [if_neg hg]
          simp only [Bool.not_eq_true] at hg
          simp only [hg, Bool.not_false] at h
          rw [if_pos (by decide)] at h
          simp only [create_simple_file, gnssFileInfoTypes, Except.map] at h
          rw [if_neg (by decide)] at h
          cases h
          rfl
    · right; right
      constructor
      · assumption
      · by_cases hg : pathExists fs (Path.withExtension p "gpx") <;>
          by_cases hk : pathExists fs (Path.withExtension p "kml")
        all_goals simp only [hg, hk, Bool.not_true, Bool.not_false, Bool.and_true,
          Bool.and_false, Bool.true_and, Bool.false_and, Bool.true_or, Bool.or_true,
          Bool.false_or, Bool.or_false] at h ⊢
        · rw [if_neg (by decide)] at h
          cases h; rfl
        · rw [if_neg (by decide)] at h
          cases h; rfl
        · rw [if_neg (by decide)] at h
          cases h; rfl
        · rw [if_pos (by decide)] at h
          simp only [create_simple_file, gnssFileInfoTypes, Except.map] at h
          rw [if_neg (by decide)] at h
          cases h; rfl
    · cases h

/-- C8: for every scanned file of a successful GNSS listing, the file
has a gpx/kml/txt extension (anything else would have been a fatal
error); a gpx entry is always emitted, a kml entry is emitted iff no
same-stem gpx exists, a txt entry iff neither a same-stem gpx nor kml
exists; and `list_high_quality` is identical to `list_thumbnail`. -/
theorem C8_gnss_listing_preference (fs : FS) (card : Path) (km : List Path)
    (items : List FileItem) (n : String)
    (h : gnss_list_thumbnail fs card km = .ok items)
    (hp : (card ++ [n]) ∈ dirChildren fs card) :
    gnss_list_high_quality fs card km = gnss_list_thumbnail fs card km ∧
    ∃ ext, extName n = some ext ∧
      (strToLower ext = "gpx" ∨ strToLower ext = "kml" ∨ strToLower ext = "txt") ∧
      (gnssTrackItem (card ++ [n]) ∈ items ↔
        (strToLower ext = "gpx" ∨
         (strToLower ext = "kml" ∧
            pathExists fs (Path.withExtension (card ++ [n]) "gpx") = false) ∨
         (strToLower ext = "txt" ∧
            pathExists fs (Path.withExtension (card ++ [n]) "gpx") = false ∧
            pathExists fs (Path.withExtension (card ++ [n]) "kml") = false))) := by
  refine ⟨rfl, ?_⟩
  obtain ⟨_, haux⟩ := filter_dir_ok_elim h
  obtain ⟨r, hr⟩ := filterDirAux_ok_all haux hp
  rw [entryVisit_child] at hr
  obtain ⟨ext, hext, hcases⟩ := gnss_visitor_cases hr
  refine ⟨ext, hext, ?_, ?_⟩
  · rcases hcases with ⟨h1, _⟩ | ⟨h1, _⟩ | ⟨h1, _⟩
    · exact Or.inl h1
    · exact Or.inr (Or.inl h1)
    · exact Or.inr (Or.inr h1)
  · constructor
    · -- membership implies the preference condition
      intro hm
      obtain ⟨q, hq, hfq⟩ := filterDirAux_ok_mem haux hm
      obtain ⟨m, rfl, _⟩ := dirChildren_shape hq
      rw [entryVisit_child] at hfq
      obtain ⟨ext', hext', hcases'⟩ := gnss_visitor_cases hfq
      have hfile : ∀ {it : FileItem},
          (some it : Option FileItem) = some (gnssTrackItem (card ++ [n])) →
          it.file_path = render (card ++ [n]) := by
        intro it hit
        cases hit
        rfl
      -- identify the emitting entry with this entry
      have hqp : m = n := by
        rcases hcases' with ⟨h1, h2⟩ | ⟨h1, h2⟩ | ⟨h1, h2⟩
        · exact render_child_inj (hfile h2.symm)
        · by_cases hg : pathExists fs (Path.withExtension (card ++ [m]) "gpx")
          · rw [if_pos hg] at h2; cases h2
          · rw [if_neg hg] at h2
            exact render_child_inj (hfile h2.symm)
        · by_cases hg : pathExists fs (Path.withExtension (card ++ [m]) "gpx") ||
              pathExists fs (Path.withExtension (card ++ [m]) "kml")
          · rw [if_pos hg] at h2; cases h2
          · rw [if_neg hg] at h2
            exact render_child_inj (hfile h2.symm)
      subst hqp
      -- the entry's extension is the one computed for this entry
      have hee : ext' = ext := by
        rw [hext] at hext'
        cases hext'
        rfl
      subst hee
      rcases hcases' with ⟨h1, h2⟩ | ⟨h1, h2⟩ | ⟨h1, h2⟩
      · exact Or.inl h1
      · by_cases hg : pathExists fs (Path.withExtension (card ++ [m]) "gpx")
        · rw [if_pos hg] at h2; cases h2
        · exact Or.inr (Or.inl ⟨h1, by simpa using hg⟩)
      · by_cases hg : pathExists fs (Path.withExtension (card ++ [m]) "gpx") ||
            pathExists fs (Path.withExtension (card ++ [m]) "kml")
        · rw [if_pos hg] at h2; cases h2
        · simp only [Bool.or_eq_true, not_or, Bool.not_eq_true] at hg
          exact Or.inr (Or.inr ⟨h1, hg.1, hg.2⟩)
    · -- the preference condition implies membership
      intro hc
      have hemit : gnss_thumbnail_visitor fs (card ++ [n]) n (render (card ++ [n])) (extName n) =
          .ok (some (gnssTrackItem (card ++ [n]))) := by
        rcases hcases with ⟨h1, h2⟩ | ⟨h1, h2⟩ | ⟨h1, h2⟩
        · rw [hr, h2]; rfl
        · rcases hc with hc | ⟨_, hc2⟩ | ⟨hc1, _⟩
          · rw [hc] at h1; exact absurd h1 (by decide)
          · rw [hr, h2, if_neg (by simp [hc2])]; rfl
          · rw [hc1] at h1; exact absurd h1 (by decide)
        · rcases hc with hc | ⟨hc1, _⟩ | ⟨_, hc2, hc3⟩
          · rw [hc] at h1; exact absurd h1 (by decide)
          · rw [hc1] at h1; exact absurd h1 (by decide)
          · rw [hr, h2, if_neg (by simp [hc2, hc3])]; rfl
      refine filterDirAux_ok_forward haux hp ?_
      rw [entryVisit_child]
      exact hemit

/-- C8 witness: on a card with stems `a` (gpx+kml) and `b` (kml+txt),
the theorem applied to the scanned entry `a.kml`, whose gpx sibling
exists, so it is not among the emitted items. -/
theorem C8_gnss_listing_preference_witness :
    gnss_list_high_quality [["c", "a.gpx"], ["c", "a.kml"], ["c", "b.kml"], ["c", "b.txt"]] ["c"] [] =
      gnss_list_thumbnail [["c", "a.gpx"], ["c", "a.kml"], ["c", "b.kml"], ["c", "b.txt"]] ["c"] [] ∧
    ∃ ext, extName "a.kml" = some ext ∧
      (strToLower ext = "gpx" ∨ strToLower ext = "kml" ∨ strToLower ext = "txt") ∧
      (gnssTrackItem (["c"] ++ ["a.kml"]) ∈
          [gnssTrackItem ["c", "a.gpx"], gnssTrackItem ["c", "b.kml"]] ↔
        (strToLower ext = "gpx" ∨
         (strToLower ext = "kml" ∧
            pathExists [["c", "a.gpx"], ["c", "a.kml"], ["c", "b.kml"], ["c", "b.txt"]]
              (Path.withExtension (["c"] ++ ["a.kml"]) "gpx") = false) ∨
         (strToLower ext = "txt" ∧
            pathExists [["c", "a.gpx"], ["c", "a.kml"], ["c", "b.kml"], ["c", "b.txt"]]
              (Path.withExtension (["c"] ++ ["a.kml"]) "gpx") = false ∧
            pathExists [["c", "a.gpx"], ["c", "a.kml"], ["c", "b.kml"], ["c", "b.txt"]]
              (Path.withExtension (["c"] ++ ["a.kml"]) "kml") = false))) :=
  C8_gnss_listing_preference
    [["c", "a.gpx"], ["c", "a.kml"], ["c", "b.kml"], ["c", "b.txt"]] ["c"] []
    [gnssTrackItem ["c", "a.gpx"], gnssTrackItem ["c", "b.kml"]] "a.kml"
    (by rfl) (by decide)

/-! ### Claim C3 -/

/-- When the backwards walk of `list_high_quality` succeeds with
`true`, every earlier part's derived H.264 high-bitrate sibling is in
the known-missing set (the walk derives both of its candidate paths
with the H.264 file type, as the source does). -/
theorem mp4EarlierKm_true {p : Path} {km : List Path} {ns : List Nat}
    (h : mp4EarlierKm p km ns = .ok true) :
    ∀ n ∈ ns, ∀ q, create_gopro_video_file p n .HighBitrateH264Video = .ok q → q ∈ km := by
  induction ns with
  | nil => intro n hn; cases hn
  | cons m ms ih =>
    intro n hn q hq
    rw [mp4EarlierKm] at h
    cases hc : create_gopro_video_file p m .HighBitrateH264Video with
    | error e => rw [hc] at h; cases h
    | ok v =>
      rw [hc] at h
      dsimp only at h
      by_cases hin : v ∈ km
      · rw [if_neg (by simp [hin])] at h
        rcases List.mem_cons.mp hn with rfl | hn'
        · rw [hc] at hq
          cases hq
          exact hin
        · exact ih h n hn' q hq
      · rw [if_pos (by simp [hin])] at h
        cases h

theorem entryVisit_of_getLast
    {g : Path → String → String → Option String → Except String (Option FileItem)}
    {p : Path} {fn : String} (hlast : p.getLast? = some fn) :
    entryVisit g p = g p fn (render p) (extName fn) := by
  rw [entryVisit, hlast]

/-- C3: an MP4 entry with parsed part number `n > 1` that the
`list_high_quality` visitor accepts is in the emitted items, is
accepted only if every earlier part's H.264-or-H.265 high-bitrate
sibling is known-missing, and is emitted as the numbered-part FileItem
whose part_count is the existing-parts count of `count_gopro_parts`. -/
theorem C3_gopro_list_high_quality_mp4_gating (fs : FS) (card : Path)
    (km : List Path) (items : List FileItem) (p : Path) (fn : String)
    (it : FileItem) (n : Nat)
    (h : gopro_list_high_quality fs card km = .ok items)
    (hp : p ∈ dirChildren fs card)
    (hlast : p.getLast? = some fn)
    (hext : extName fn = some "MP4")
    (hid : get_gopro_video_part_id fn = .ok n)
    (hn : 1 < n)
    (hv : gopro_high_quality_visitor fs km p fn (render p) (extName fn) = .ok (some it)) :
    it ∈ items ∧
    (∀ k, 1 ≤ k → k < n → ∀ p264 p265,
      create_gopro_video_file p k .HighBitrateH264Video = .ok p264 →
      create_gopro_video_file p k .HighBitrateH265Video = .ok p265 →
      (p264 ∈ km ∨ p265 ∈ km)) ∧
    ∃ pc, count_gopro_parts fs p km = .ok pc ∧
      it = create_part_file (render p) ⟨.FileVideo, .ItemVideo⟩
        pc.existing_parts_count 1 (some (render p)) := by
  obtain ⟨_, haux⟩ := filter_dir_ok_elim h
  have hmem : it ∈ items := by
    refine filterDirAux_ok_forward haux hp ?_
    rw [entryVisit_of_getLast hlast]
    exact hv
  -- analyse the accepting run of the visitor
  rw [hext] at hv
  unfold gopro_high_quality_visitor at hv
  simp only [bind, Except.bind] at hv
  rw [hid] at hv
  dsimp only at hv
  rw [if_pos (by omega : n ≠ 1)] at hv
  cases hkm : mp4EarlierKm p km (List.range' 1 (n - 1)) with
  | error e => rw [hkm] at hv; cases hv
  | ok b =>
    rw [hkm] at hv
    dsimp only at hv
    cases b with
    | false =>
      simp only [Bool.false_eq_true, if_false, pure, Except.pure] at hv
      cases hv
    | true =>
      simp only [if_pos] at hv
      cases hcnt : count_gopro_parts fs p km with
      | error e => rw [hcnt] at hv; cases hv
      | ok pc =>
        rw [hcnt] at hv
        dsimp only [gopro_filetype, pure, Except.pure] at hv
        refine ⟨hmem, ?_, pc, rfl, ?_⟩
        · intro k hk1 hk2 p264 p265 h264 _
          refine Or.inl ?_
          refine mp4EarlierKm_true hkm k ?_ p264 h264
          simp only [List.mem_range'_1]
          omega
        · cases hv
          rfl

/-- C3 witness: a part-2 MP4 whose part-1 H.264 sibling is declared
known-missing is accepted and carries `part_count = 1` (one existing
part out of two accounted). -/
theorem C3_gopro_list_high_quality_mp4_gating_witness :
    (create_part_file "/c/GH02AB.MP4" ⟨.FileVideo, .ItemVideo⟩ 1 1 (some "/c/GH02AB.MP4")) ∈
      [create_part_file "/c/GH02AB.MP4" ⟨.FileVideo, .ItemVideo⟩ 1 1 (some "/c/GH02AB.MP4")] ∧
    (∀ k, 1 ≤ k → k < 2 → ∀ p264 p265,
      create_gopro_video_file ["c", "GH02AB.MP4"] k .HighBitrateH264Video = .ok p264 →
      create_gopro_video_file ["c", "GH02AB.MP4"] k .HighBitrateH265Video = .ok p265 →
      (p264 ∈ [(["c", "GH01AB.MP4"] : Path)] ∨ p265 ∈ [(["c", "GH01AB.MP4"] : Path)])) ∧
    ∃ pc, count_gopro_parts [["c", "GH02AB.MP4"]] ["c", "GH02AB.MP4"] [["c", "GH01AB.MP4"]] = .ok pc ∧
      create_part_file "/c/GH02AB.MP4" ⟨.FileVideo, .ItemVideo⟩ 1 1 (some "/c/GH02AB.MP4") =
        create_part_file (render ["c", "GH02AB.MP4"]) ⟨.FileVideo, .ItemVideo⟩
          pc.existing_parts_count 1 (some (render ["c", "GH02AB.MP4"])) :=
  C3_gopro_list_high_quality_mp4_gating [["c", "GH02AB.MP4"]] ["c"] [["c", "GH01AB.MP4"]]
    [create_part_file "/c/GH02AB.MP4" ⟨.FileVideo, .ItemVideo⟩ 1 1 (some "/c/GH02AB.MP4")]
    ["c", "GH02AB.MP4"] "GH02AB.MP4"
    (create_part_file "/c/GH02AB.MP4" ⟨.FileVideo, .ItemVideo⟩ 1 1 (some "/c/GH02AB.MP4")) 2
    (by rfl) (by decide) (by rfl) (by rfl) (by rfl) (by decide) (by rfl)

/-! ### Claims C4 and C5: the part loop of GoPro get_related -/

theorem stepFlag_h264 (b : Bool) (s : FoundSet) :
    (if b then FoundSet.insert s .HighBitrateH264Video else s).h264 = (s.h264 || b) := by
  cases b <;> simp [FoundSet.insert]

theorem stepFlag_h265 (b : Bool) (s : FoundSet) :
    (if b then FoundSet.insert s .HighBitrateH265Video else s).h265 = (s.h265 || b) := by
  cases b <;> simp [FoundSet.insert]

theorem stepFlag_lrv (b : Bool) (s : FoundSet) :
    (if b then FoundSet.insert s .LowBitrateVideo else s).lrv = (s.lrv || b) := by
  cases b <;> simp [FoundSet.insert]

theorem stepFlag_thm264 (b : Bool) (s : FoundSet) :
    (if b then FoundSet.insert s .ThumbnailPhoto_of_H264Video else s).thm264 = (s.thm264 || b) := by
  cases b <;> simp [FoundSet.insert]

theorem stepFlag_thm265 (b : Bool) (s : FoundSet) :
    (if b then FoundSet.insert s .ThumbnailPhoto_of_H265Video else s).thm265 = (s.thm265 || b) := by
  cases b <;> simp [FoundSet.insert]

theorem stepFlag_other_h264 {t : GoProVideoFileType} (b : Bool) (s : FoundSet)
    (ht : t ≠ .HighBitrateH264Video) :
    (if b then FoundSet.insert s t else s).h264 = s.h264 := by
  cases b
  · rfl
  · cases t <;> simp_all [FoundSet.insert]

theorem stepFlag_other_h265 {t : GoProVideoFileType} (b : Bool) (s : FoundSet)
    (ht : t ≠ .HighBitrateH265Video) :
    (if b then FoundSet.insert s t else s).h265 = s.h265 := by
  cases b
  · rfl
  · cases t <;> simp_all [FoundSet.insert]

theorem stepFlag_other_lrv {t : GoProVideoFileType} (b : Bool) (s : FoundSet)
    (ht : t ≠ .LowBitrateVideo) :
    (if b then FoundSet.insert s t else s).lrv = s.lrv := by
  cases b
  · rfl
  · cases t <;> simp_all [FoundSet.insert]

theorem stepFlag_other_thm264 {t : GoProVideoFileType} (b : Bool) (s : FoundSet)
    (ht : t ≠ .ThumbnailPhoto_of_H264Video) :
    (if b then FoundSet.insert s t else s).thm264 = s.thm264 := by
  cases b
  · rfl
  · cases t <;> simp_all [FoundSet.insert]

theorem stepFlag_other_thm265 {t : GoProVideoFileType} (b : Bool) (s : FoundSet)
    (ht : t ≠ .ThumbnailPhoto_of_H265Video) :
    (if b then FoundSet.insert s t else s).thm265 = s.thm265 := by
  cases b
  · rfl
  · cases t <;> simp_all [FoundSet.insert]

/-- One inner-loop step of `get_related`: the derived sibling path
exists, the flag field is set exactly when the path is accounted for,
and at most one item is appended, carrying the current part number. -/
theorem process_one_ok {fs : FS} {km : List Path} {base : Path}
    {part pcE epn : Nat} {acc acc' : List FileItem × FoundSet}
    {ft : GoProVideoFileType}
    (h : process_one fs km base part pcE epn acc ft = .ok acc') :
    ∃ fp, create_gopro_video_file base part ft = .ok fp ∧
      acc'.2 = (if accounted fs km fp then FoundSet.insert acc.2 ft else acc.2) ∧
      (acc'.1 = acc.1 ∨ ∃ item, acc'.1 = acc.1 ++ [item] ∧
        item.part_num = some epn ∧ item.part_count = some pcE) := by
  unfold process_one at h
  simp only [bind, Except.bind] at h
  cases hc : create_gopro_video_file base part ft with
  | error e => rw [hc] at h; cases h
  | ok fp =>
    rw [hc] at h
    dsimp only at h
    cases he : get_extension_str fp with
    | error e => rw [he] at h; cases h
    | ok e =>
      rw [he] at h
      dsimp only at h
      cases hi : gopro_filetype e with
      | error e2 => rw [hi] at h; cases h
      | ok info =>
        rw [hi] at h
        dsimp only at h
        refine ⟨fp, rfl, ?_⟩
        rw [create_part_file_if_exists] at h
        by_cases hex : pathExists fs fp
        · rw [if_pos hex] at h
          dsimp only [pure, Except.pure] at h
          cases h
          constructor
          · rw [if_pos]
            rw [accounted, hex]
            rfl
          · exact Or.inr ⟨_, rfl, rfl, rfl⟩
        · rw [if_neg hex] at h
          dsimp only at h
          by_cases hkm : fp ∈ km
          · rw [if_pos hkm] at h
            dsimp only [pure, Except.pure] at h
            cases h
            constructor
            · rw [if_pos]
              rw [accounted]
              simp [hkm]
            · exact Or.inl rfl
          · rw [if_neg hkm] at h
            dsimp only [pure, Except.pure] at h
            cases h
            constructor
            · rw [if_neg]
              rw [accounted]
              simp [hkm, hex]
            · exact Or.inl rfl

/-- The inner loop of `get_related` over the six file types: all five
video/thumbnail/preview sibling paths derive successfully, the flag
set records exactly which of them are accounted for, and every emitted
item carries the current part number and the existing-parts count. -/
theorem process_part_ok {fs : FS} {km : List Path} {base : Path}
    {part pcE epn : Nat} {ni : List FileItem} {found : FoundSet}
    (h : process_part fs km base part pcE epn = .ok (ni, found)) :
    (∀ it ∈ ni, it.part_num = some epn ∧ it.part_count = some pcE) ∧
    ∃ p264 p265 plrv pt265 pt264,
      create_gopro_video_file base part .HighBitrateH264Video = .ok p264 ∧
      create_gopro_video_file base part .HighBitrateH265Video = .ok p265 ∧
      create_gopro_video_file base part .LowBitrateVideo = .ok plrv ∧
      create_gopro_video_file base part .ThumbnailPhoto_of_H265Video = .ok pt265 ∧
      create_gopro_video_file base part .ThumbnailPhoto_of_H264Video = .ok pt264 ∧
      found.h264 = accounted fs km p264 ∧
      found.h265 = accounted fs km p265 ∧
      found.lrv = accounted fs km plrv ∧
      found.thm264 = accounted fs km pt264 ∧
      found.thm265 = accounted fs km pt265 := by
  unfold process_part at h
  simp only [bind, Except.bind] at h
  cases h1 : process_one fs km base part pcE epn ([], FoundSet.empty) .HighBitrateH264Video with
  | error e => rw [h1] at h; cases h
  | ok a =>
    rw [h1] at h
    dsimp only at h
    cases h2 : process_one fs km base part pcE epn a .HighBitrateH265Video with
    | error e => rw [h2] at h; cases h
    | ok b =>
      rw [h2] at h
      dsimp only at h
      cases h3 : process_one fs km base part pcE epn b .LowBitrateVideo with
      | error e => rw [h3] at h; cases h
      | ok c =>
        rw [h3] at h
        dsimp only at h
        cases h4 : process_one fs km base part pcE epn c .ThumbnailPhoto_of_H265Video with
        | error e => rw [h4] at h; cases h
        | ok d =>
          rw [h4] at h
          dsimp only at h
          cases h5 : process_one fs km base part pcE epn d .ThumbnailPhoto_of_H264Video with
          | error e => rw [h5] at h; cases h
          | ok e =>
            rw [h5] at h
            dsimp only at h
            obtain ⟨p1, hc1, hf1, hi1⟩ := process_one_ok h1
            obtain ⟨p2, hc2, hf2, hi2⟩ := process_one_ok h2
            obtain ⟨p3, hc3, hf3, hi3⟩ := process_one_ok h3
            obtain ⟨p4, hc4, hf4, hi4⟩ := process_one_ok h4
            obtain ⟨p5, hc5, hf5, hi5⟩ := process_one_ok h5
            obtain ⟨p6, hc6, hf6, hi6⟩ := process_one_ok h
            have hflags : found = (e.2.insert .WavAudio) ∨ found = e.2 := by
              by_cases hb : accounted fs km p6
              · rw [if_pos hb] at hf6
                exact Or.inl hf6
              · rw [if_neg hb] at hf6
                exact Or.inr hf6
            -- the WAV step never touches the five flags of interest
            have hfw : found.h264 = e.2.h264 ∧ found.h265 = e.2.h265 ∧
                found.lrv = e.2.lrv ∧ found.thm264 = e.2.thm264 ∧
                found.thm265 = e.2.thm265 := by
              rcases hflags with hq | hq <;> rw [hq] <;>
                simp [FoundSet.insert]
            refine ⟨?_, p1, p2, p3, p4, p5, hc1, hc2, hc3, hc4, hc5, ?_, ?_, ?_, ?_, ?_⟩
            · -- items: every appended item carries (epn, pcE)
              have base0 : ∀ it ∈ ([] : List FileItem), it.part_num = some epn ∧ it.part_count = some pcE := by
                intro it hit; cases hit
              have step : ∀ {xs ys : List FileItem},
                  (∀ it ∈ xs, it.part_num = some epn ∧ it.part_count = some pcE) →
                  (ys = xs ∨ ∃ item, ys = xs ++ [item] ∧
                    item.part_num = some epn ∧ item.part_count = some pcE) →
                  ∀ it ∈ ys, it.part_num = some epn ∧ it.part_count = some pcE := by
                intro xs ys hxs hys it hit
                rcases hys with rfl | ⟨item, rfl, hip, hic⟩
                · exact hxs it hit
                · rcases List.mem_append.mp hit with hm | hm
                  · exact hxs it hm
                  · rcases List.mem_singleton.mp hm with rfl
                    exact ⟨hip, hic⟩
              have l1 := step base0 hi1
              have l2 := step l1 hi2
              have l3 := step l2 hi3
              have l4 := step l3 hi4
              have l5 := step l4 hi5
              have l6 := step l5 hi6
              intro it hit
              exact l6 it hit
            · rw [hfw.1, hf5, hf4, hf3, hf2, hf1]
              rw [stepFlag_other_h264 _ _ (by decide), stepFlag_other_h264 _ _ (by decide),
                stepFlag_other_h264 _ _ (by decide), stepFlag_other_h264 _ _ (by decide),
                stepFlag_h264]
              rfl
            · rw [hfw.2.1, hf5, hf4, hf3, hf2, hf1]
              rw [stepFlag_other_h265 _ _ (by decide), stepFlag_other_h265 _ _ (by decide),
                stepFlag_other_h265 _ _ (by decide), stepFlag_h265,
                stepFlag_other_h265 _ _ (by decide)]
              rfl
            · rw [hfw.2.2.1, hf5, hf4, hf3, hf2, hf1]
              rw [stepFlag_other_lrv _ _ (by decide), stepFlag_other_lrv _ _ (by decide),
                stepFlag_lrv, stepFlag_other_lrv _ _ (by decide),
                stepFlag_other_lrv _ _ (by decide)]
              rfl
            · rw [hfw.2.2.2.1, hf5, hf4, hf3, hf2, hf1]
              rw [stepFlag_thm264, stepFlag_other_thm264 _ _ (by decide),
                stepFlag_other_thm264 _ _ (by decide), stepFlag_other_thm264 _ _ (by decide),
                stepFlag_other_thm264 _ _ (by decide)]
              rfl
            · rw [hfw.2.2.2.2, hf5, hf4, hf3, hf2, hf1]
              rw [stepFlag_other_thm265 _ _ (by decide), stepFlag_thm265,
                stepFlag_other_thm265 _ _ (by decide), stepFlag_other_thm265 _ _ (by decide),
                stepFlag_other_thm265 _ _ (by decide)]
              rfl

/-- A flag set whose low-bitrate-preview flag is set is not empty. -/
theorem FoundSet.ne_empty_of_lrv {s : FoundSet} (h : s.lrv = true) :
    s ≠ FoundSet.empty := by
  intro hq
  rw [hq] at h
  cases h

/-- Every part processed by a successful run of the outer loop of
`get_related` satisfies the per-part invariant. -/
theorem get_related_parts_invariant {fs : FS} {km : List Path} {base : Path} {pcE : Nat} :
    ∀ (parts : List Nat) (epn : Nat) (items0 res : List FileItem),
      get_related_parts fs km base pcE parts epn items0 = .ok res →
      ∀ part ∈ parts, gopro_part_invariant fs km base part = true := by
  intro parts
  induction parts with
  | nil => intro epn items0 res h part hp; cases hp
  | cons p rest ih =>
    intro epn items0 res h part hp
    rw [get_related_parts] at h
    cases hpp : process_part fs km base p pcE epn with
    | error e => rw [hpp] at h; cases h
    | ok pr =>
      obtain ⟨ni, found⟩ := pr
      rw [hpp] at h
      dsimp only at h
      by_cases b1 : (found.h264).xor found.h265 = false
      · rw [if_pos b1] at h; cases h
      · rw [if_neg b1] at h
        by_cases b2 : (found.thm264).xor found.thm265 = false
        · rw [if_pos b2] at h; cases h
        · rw [if_neg b2] at h
          by_cases b3 : found.lrv = false
          · rw [if_pos b3] at h; cases h
          · rw [if_neg b3] at h
            rcases List.mem_cons.mp hp with rfl | hrest
            · -- the processed part satisfies the invariant
              obtain ⟨_, p264, p265, plrv, pt265, pt264,
                hc1, hc2, hc3, hc4, hc5, hf1, hf2, hf3, hf4, hf5⟩ := process_part_ok hpp
              unfold gopro_part_invariant
              rw [hc1, hc2, hc5, hc4, hc3]
              dsimp only
              rw [← hf1, ← hf2, ← hf3, ← hf4, ← hf5]
              rw [Bool.not_eq_false] at b1 b2 b3
              rw [b1, b2, b3]
              rfl
            · exact ih _ _ _ h part hrest

/-- In a successful run of the outer loop in which the processed part
numbers follow the running externally-visible part number, every
emitted item stems from the processing of its own part number. -/
theorem get_related_parts_items {fs : FS} {km : List Path} {base : Path} {pcE : Nat} :
    ∀ (parts : List Nat) (epn : Nat) (items0 res : List FileItem),
      get_related_parts fs km base pcE parts epn items0 = .ok res →
      (∀ k (hk : k < parts.length), parts.get ⟨k, hk⟩ = epn + k) →
      ∀ it ∈ res, it ∈ items0 ∨ ∃ part ∈ parts, ∃ ni found,
        process_part fs km base part pcE part = .ok (ni, found) ∧ it ∈ ni := by
  intro parts
  induction parts with
  | nil =>
    intro epn items0 res h _ it hit
    rw [get_related_parts] at h
    cases h
    exact Or.inl hit
  | cons p rest ih =>
    intro epn items0 res h hspec it hit
    rw [get_related_parts] at h
    cases hpp : process_part fs km base p pcE epn with
    | error e => rw [hpp] at h; cases h
    | ok pr =>
      obtain ⟨ni, found⟩ := pr
      rw [hpp] at h
      dsimp only at h
      by_cases b1 : (found.h264).xor found.h265 = false
      · rw [if_pos b1] at h; cases h
      · rw [if_neg b1] at h
        by_cases b2 : (found.thm264).xor found.thm265 = false
        · rw [if_pos b2] at h; cases h
        · rw [if_neg b2] at h
          by_cases b3 : found.lrv = false
          · rw [if_pos b3] at h; cases h
          · rw [if_neg b3] at h
            rw [Bool.not_eq_false] at b3
            rw [if_neg (FoundSet.ne_empty_of_lrv b3)] at h
            have hp0 : p = epn := by
              have := hspec 0 (by simp)
              simpa using this
            have hspec' : ∀ k (hk : k < rest.length),
                rest.get ⟨k, hk⟩ = (epn + 1) + k := by
              intro k hk
              have := hspec (k + 1) (by simpa using Nat.succ_lt_succ hk)
              simpa [Nat.add_assoc, Nat.add_comm 1 k] using this
            rcases ih _ _ _ h hspec' it hit with hin | ⟨part, hpm, ni', found', hpp', hin'⟩
            · rcases List.mem_append.mp hin with hm | hm
              · exact Or.inl hm
              · refine Or.inr ⟨p, List.mem_cons_self _ _, ni, found, ?_, hm⟩
                rw [← hp0] at hpp
                exact hpp
            · exact Or.inr ⟨part, List.mem_cons_of_mem _ hpm, ni', found', hpp', hin'⟩

/-- A successful video-family `get_related` call reduces to the outer
part loop over `1 ..= all_parts_count` starting at visible part
number 1. -/
theorem gopro_get_related_video_loop {fs : FS} {file : Path} {km : List Path}
    {items : List FileItem} {ext : String} {pc : PartCount}
    (h : gopro_get_related fs file km = .ok items)
    (he : get_extension_str file = .ok ext)
    (hv : ext = "THM" ∨ ext = "MP4" ∨ ext = "WAV" ∨ ext = "LRV")
    (hc : count_gopro_parts fs file km = .ok pc) :
    get_related_parts fs km file pc.existing_parts_count
      (List.range' 1 pc.all_parts_count) 1 [] = .ok items := by
  unfold gopro_get_related at h
  simp only [bind, Except.bind] at h
  rw [he] at h
  dsimp only at h
  rcases hv with rfl | rfl | rfl | rfl <;>
    (rw [hc] at h; dsimp only at h; exact h)

/-! ### Claim C4 -/

/-- C4: in a successful video-family `get_related` call, every part of
the counted sequence satisfies the exclusivity/presence invariants:
exactly one of the H.264/H.265 video siblings accounted for, exactly
one of the two thumbnail siblings accounted for, the low-bitrate
preview accounted for, and no condition on the WAV sibling (which the
invariant does not mention); in particular a part whose H.264 and
H.265 MP4 siblings both exist would make the call fail. -/
theorem C4_gopro_get_related_part_invariants (fs : FS) (file : Path)
    (km : List Path) (items : List FileItem) (ext : String) (pc : PartCount) (part : Nat)
    (h : gopro_get_related fs file km = .ok items)
    (he : get_extension_str file = .ok ext)
    (hv : ext = "THM" ∨ ext = "MP4" ∨ ext = "WAV" ∨ ext = "LRV")
    (hc : count_gopro_parts fs file km = .ok pc)
    (hp1 : 1 ≤ part) (hp2 : part ≤ pc.all_parts_count) :
    gopro_part_invariant fs km file part = true ∧
    (∀ q264 q265,
      create_gopro_video_file file part .HighBitrateH264Video = .ok q264 →
      create_gopro_video_file file part .HighBitrateH265Video = .ok q265 →
      ¬(pathExists fs q264 = true ∧ pathExists fs q265 = true)) := by
  have hloop := gopro_get_related_video_loop h he hv hc
  have hinv := get_related_parts_invariant _ _ _ _ hloop part
    (by simp only [List.mem_range'_1]; omega)
  refine ⟨hinv, ?_⟩
  intro q264 q265 hq4 hq5 ⟨he4, he5⟩
  unfold gopro_part_invariant at hinv
  rw [hq4, hq5] at hinv
  cases ht4 : create_gopro_video_file file part .ThumbnailPhoto_of_H264Video with
  | error e => rw [ht4] at hinv; cases hinv
  | ok t4 =>
    rw [ht4] at hinv
    cases ht5 : create_gopro_video_file file part .ThumbnailPhoto_of_H265Video with
    | error e => rw [ht5] at hinv; cases hinv
    | ok t5 =>
      rw [ht5] at hinv
      cases hl : create_gopro_video_file file part .LowBitrateVideo with
      | error e => rw [hl] at hinv; cases hinv
      | ok l =>
        rw [hl] at hinv
        dsimp only at hinv
        have ha4 : accounted fs km q264 = true := by rw [accounted, he4]; rfl
        have ha5 : accounted fs km q265 = true := by rw [accounted, he5]; rfl
        rw [ha4, ha5] at hinv
        simp at hinv

/-- C4 witness: a one-part H.265-only fixture (no WAV present or
declared known-missing) satisfies all hypotheses, and the invariants
hold at part 1. -/
theorem C4_gopro_get_related_part_invariants_witness :
    gopro_part_invariant
      [["c", "GX01AB.MP4"], ["c", "GL01AB.LRV"], ["c", "GX01AB.THM"]]
      [] ["c", "GX01AB.MP4"] 1 = true ∧
    (∀ q264 q265,
      create_gopro_video_file ["c", "GX01AB.MP4"] 1 .HighBitrateH264Video = .ok q264 →
      create_gopro_video_file ["c", "GX01AB.MP4"] 1 .HighBitrateH265Video = .ok q265 →
      ¬(pathExists [["c", "GX01AB.MP4"], ["c", "GL01AB.LRV"], ["c", "GX01AB.THM"]] q264 = true ∧
        pathExists [["c", "GX01AB.MP4"], ["c", "GL01AB.LRV"], ["c", "GX01AB.THM"]] q265 = true)) :=
  C4_gopro_get_related_part_invariants
    [["c", "GX01AB.MP4"], ["c", "GL01AB.LRV"], ["c", "GX01AB.THM"]]
    ["c", "GX01AB.MP4"] []
    [create_part_file "/c/GX01AB.MP4" ⟨.FileVideo, .ItemVideo⟩ 1 1 none,
     create_part_file "/c/GL01AB.LRV" ⟨.FileVideoPreview, .ItemVideo⟩ 1 1 none,
     create_part_file "/c/GX01AB.THM" ⟨.FileImagePreview, .ItemVideo⟩ 1 1 none]
    "MP4" ⟨1, 1⟩ 1
    (by rfl) (by rfl) (Or.inr (Or.inl rfl)) (by rfl) (by decide) (by decide)

/-! ### Claim C5 -/

/-- C5 counterexample: part 1 exists on disk, part 2's H.265 video,
LRV preview and H.265 thumbnail are all declared known-missing (so the
part emits nothing), and part 3 exists on disk.  The claim says the
emitted files of the parts after the known-missing-only part carry
consecutive part numbers with no gap, i.e. part 3's files would carry
part number 2; the code emits them with part number 3 and no item at
all carries part number 2, because the externally-visible part number
increments for accounted-for (not only emitting) parts. -/
theorem C5_counterexample_known_missing_part_creates_gap :
    (gopro_get_related
      [["c", "GX01AB.MP4"], ["c", "GL01AB.LRV"], ["c", "GX01AB.THM"],
       ["c", "GX03AB.MP4"], ["c", "GL03AB.LRV"], ["c", "GX03AB.THM"]]
      ["c", "GX01AB.MP4"]
      [["c", "GX02AB.MP4"], ["c", "GL02AB.LRV"], ["c", "GX02AB.THM"]]).map
        (List.map (fun it => it.part_num)) =
      .ok [some 1, some 1, some 1, some 3, some 3, some 3] := by
  rfl

/-- C5 amended: the externally-visible part number increments for
every part of a successful run (every part of a successful run has at
least one accounted-for file, since its low-bitrate preview must be
accounted for), so each emitted item of a video-family `get_related`
call carries a part_num equal to the device part number that produced
it — and a part whose files are all known-missing therefore leaves a
gap in the emitted numbering rather than being skipped over. -/
theorem C5_gopro_get_related_part_numbers (fs : FS) (file : Path)
    (km : List Path) (items : List FileItem) (ext : String) (pc : PartCount)
    (h : gopro_get_related fs file km = .ok items)
    (he : get_extension_str file = .ok ext)
    (hv : ext = "THM" ∨ ext = "MP4" ∨ ext = "WAV" ∨ ext = "LRV")
    (hc : count_gopro_parts fs file km = .ok pc) :
    ∀ it ∈ items, ∃ part, 1 ≤ part ∧ part ≤ pc.all_parts_count ∧
      (∃ ni found, process_part fs km file part pc.existing_parts_count part = .ok (ni, found) ∧
        it ∈ ni) ∧
      it.part_num = some part := by
  intro it hit
  have hloop := gopro_get_related_video_loop h he hv hc
  have hsrc := get_related_parts_items _ _ _ _ hloop
    (by intro k hk; simp [List.getElem_range']) it hit
  rcases hsrc with hin | ⟨part, hpm, ni, found, hpp, hin⟩
  · cases hin
  · rw [List.mem_range'_1] at hpm
    refine ⟨part, hpm.1, by omega, ⟨ni, found, hpp, hin⟩, ?_⟩
    exact ((process_part_ok hpp).1 it hin).1

/-- C5 amended witness: on the one-part fixture the emitted MP4 item
stems from part 1 and carries part number 1, its own part. -/
theorem C5_gopro_get_related_part_numbers_witness :
    ∃ part, 1 ≤ part ∧ part ≤ (PartCount.mk 1 1).all_parts_count ∧
      (∃ ni found, process_part
          [["c", "GX01AB.MP4"], ["c", "GL01AB.LRV"], ["c", "GX01AB.THM"]] []
          ["c", "GX01AB.MP4"] part (PartCount.mk 1 1).existing_parts_count part =
            .ok (ni, found) ∧
        create_part_file "/c/GX01AB.MP4" ⟨.FileVideo, .ItemVideo⟩ 1 1 none ∈ ni) ∧
      (create_part_file "/c/GX01AB.MP4" ⟨.FileVideo, .ItemVideo⟩ 1 1 none).part_num = some part :=
  C5_gopro_get_related_part_numbers
    [["c", "GX01AB.MP4"], ["c", "GL01AB.LRV"], ["c", "GX01AB.THM"]]
    ["c", "GX01AB.MP4"] []
    [create_part_file "/c/GX01AB.MP4" ⟨.FileVideo, .ItemVideo⟩ 1 1 none,
     create_part_file "/c/GL01AB.LRV" ⟨.FileVideoPreview, .ItemVideo⟩ 1 1 none,
     create_part_file "/c/GX01AB.THM" ⟨.FileImagePreview, .ItemVideo⟩ 1 1 none]
    "MP4" ⟨1, 1⟩
    (by rfl) (by rfl) (Or.inr (Or.inl rfl)) (by rfl)
    (create_part_file "/c/GX01AB.MP4" ⟨.FileVideo, .ItemVideo⟩ 1 1 none)
    (List.mem_cons_self _ _)

/-! ### Claim C7: path and name helper lemmas -/

theorem parentOpt_concat (A : Path) (n : String) : parentOpt (A ++ [n]) = some A := by
  cases A with
  | nil => rfl
  | cons a as =>
    show parentOpt ((a :: as) ++ [n]) = some (a :: as)
    rw [List.cons_append, parentOpt, ← List.cons_append, List.dropLast_concat]

theorem pathLe_concat_elim {d : Path} {m : String} {w : Path}
    (h : pathLe (d ++ [m]) w = true) :
    pathLe d w = true ∧ (w.drop d.length).head? = some m := by
  induction d generalizing w with
  | nil =>
    cases w with
    | nil => cases h
    | cons b bs =>
      simp only [List.nil_append, pathLe, Bool.and_eq_true, decide_eq_true_eq] at h
      exact ⟨rfl, by simp [h.1]⟩
  | cons a as ih =>
    cases w with
    | nil => cases h
    | cons b bs =>
      simp only [List.cons_append, pathLe, Bool.and_eq_true, decide_eq_true_eq] at h
      obtain ⟨h1, h2⟩ := ih h.2
      refine ⟨?_, ?_⟩
      · simp [pathLe, h.1, h1]
      · simpa using h2

theorem mem_dirChildren_of_exists {fs : FS} {d : Path} {m : String}
    (h : pathExists fs (d ++ [m]) = true) : (d ++ [m]) ∈ dirChildren fs d := by
  obtain ⟨w, hw, hle⟩ := List.any_eq_true.mp h
  obtain ⟨hled, hhead⟩ := pathLe_concat_elim hle
  have hm : m ∈ dirChildNames fs d := by
    have hfm : m ∈ fs.filterMap
        (fun q => if pathLe d q then (q.drop d.length).head? else none) :=
      List.mem_filterMap.mpr ⟨w, hw, by rw [if_pos hled]; exact hhead⟩
    rcases @mem_dedupFirst_of_mem [] _ _ hfm with hc | hc
    · cases hc
    · exact hc
  exact List.mem_map.mpr ⟨m, hm, rfl⟩

theorem pathExists_of_children {fs : FS} {d : Path} {p : Path}
    (h : p ∈ dirChildren fs d) : pathExists fs d = true := by
  obtain ⟨n, rfl, hn⟩ := dirChildren_shape h
  obtain ⟨w, hw, hle, _⟩ := dirChildNames_source hn
  exact List.any_eq_true.mpr ⟨w, hw, hle⟩

theorem rsplitDot_reconstruct {cs : List Char} {a b : List Char}
    (h : rsplitDot cs = some (a, b)) : cs = a ++ '.' :: b := by
  induction cs generalizing a b with
  | nil => cases h
  | cons c rest ih =>
    rw [rsplitDot] at h
    cases hr : rsplitDot rest with
    | some ab =>
      obtain ⟨a', b'⟩ := ab
      rw [hr] at h
      cases h
      rw [List.cons_append]
      rw [← ih hr]
    | none =>
      rw [hr] at h
      by_cases hc : c = '.'
      · rw [if_pos hc] at h
        cases h
        rw [hc]
        rfl
      · rw [if_neg hc] at h
        cases h

theorem rsplitDot_append_no_dot {a b : List Char} (hb : '.' ∉ b) :
    rsplitDot (a ++ '.' :: b) = some (a, b) := by
  induction a with
  | nil =>
    rw [List.nil_append, rsplitDot]
    have hrb : rsplitDot b = none := by
      induction b with
      | nil => rfl
      | cons x xs ihx =>
        rw [rsplitDot]
        rw [ihx (fun hm => hb (List.mem_cons_of_mem _ hm))]
        rw [if_neg (by intro hx; exact hb (hx ▸ List.mem_cons_self _ _))]
    rw [hrb, if_pos rfl]
  | cons c cs ih =>
    rw [List.cons_append, rsplitDot, ih]

/-- `file_stem` is never empty for a legal file name. -/
theorem stemName_shape (n : String) :
    stemName n = n ∨ ∃ stem ext, rsplitDot n.data = some (stem, ext) ∧
      stem ≠ [] ∧ stemName n = String.mk stem ∧ n.data = stem ++ '.' :: ext := by
  rw [stemName]
  cases hr : rsplitDot n.data with
  | none => exact Or.inl rfl
  | some se =>
    obtain ⟨stem, ext⟩ := se
    dsimp only
    by_cases hs : stem = []
    · rw [if_pos hs]
      exact Or.inl rfl
    · rw [if_neg hs]
      exact Or.inr ⟨stem, ext, rfl, hs, rfl, rsplitDot_reconstruct hr⟩

theorem extName_elim {n ex : String} (h : extName n = some ex) :
    ∃ stem, rsplitDot n.data = some (stem, ex.data) ∧ stem ≠ [] ∧
      stemName n = String.mk stem ∧ n.data = stem ++ '.' :: ex.data := by
  rw [extName] at h
  cases hr : rsplitDot n.data with
  | none => rw [hr] at h; cases h
  | some se =>
    obtain ⟨stem, ext⟩ := se
    rw [hr] at h
    dsimp only at h
    by_cases hs : stem = []
    · rw [if_pos hs] at h; cases h
    · rw [if_neg hs] at h
      cases h
      refine ⟨stem, by simpa using hr, hs, ?_, by simpa using rsplitDot_reconstruct hr⟩
      rw [stemName, hr]
      dsimp only
      rw [if_neg hs]

/-- The extension of a name rebuilt by `with_extension` is the new
extension, provided it contains no dot. -/
theorem extName_withExtName (n e : String) (he : '.' ∉ e.data)
    (hs : (stemName n).data ≠ []) :
    extName (withExtName n e) = some e := by
  rw [withExtName]
  have hd : (stemName n ++ "." ++ e).data = (stemName n).data ++ '.' :: e.data := by
    rw [String.data_append, String.data_append]
    simp
  rw [extName, hd, rsplitDot_append_no_dot he]
  dsimp only
  rw [if_neg hs]

/-- The stem survives `with_extension`, provided the new extension has
no dot. -/
theorem stemName_withExtName (n e : String) (he : '.' ∉ e.data)
    (hs : (stemName n).data ≠ []) :
    stemName (withExtName n e) = stemName n := by
  rw [withExtName]
  have hd : (stemName n ++ "." ++ e).data = (stemName n).data ++ '.' :: e.data := by
    rw [String.data_append, String.data_append]
    simp
  rw [stemName, hd, rsplitDot_append_no_dot he]
  dsimp only
  rw [if_neg hs]

/-- A good name has a non-empty stem. -/
theorem stemName_ne_nil {n : String} (hn : goodName n) : (stemName n).data ≠ [] := by
  rcases stemName_shape n with h | ⟨stem, ext, _, hs, heq, _⟩
  · rw [h]; exact hn.1
  · rw [heq]; exact hs

/-- The stem's characters come from the name. -/
theorem stemName_sub {n : String} : ∀ c ∈ (stemName n).data, c ∈ n.data := by
  rcases stemName_shape n with h | ⟨stem, ext, _, _, heq, hdec⟩
  · rw [h]; exact fun c hc => hc
  · rw [heq, hdec]
    intro c hc
    exact List.mem_append.mpr (Or.inl hc)

theorem goodName_withExtName {n e : String} (hn : goodName n) (he : goodName e)
    (_hd : '.' ∉ e.data) : goodName (withExtName n e) := by
  rw [withExtName]
  constructor
  · simp [String.data_append]
  · rw [String.data_append, String.data_append]
    intro hm
    rcases List.mem_append.mp hm with hm1 | hm1
    · rcases List.mem_append.mp hm1 with hm2 | hm2
      · exact hn.2 (stemName_sub _ hm2)
      · rcases List.mem_singleton.mp hm2 with h
        cases h
    · exact he.2 hm1

theorem Path.withExtension_concat (d : Path) (n e : String) :
    Path.withExtension (d ++ [n]) e = d ++ [withExtName n e] := by
  rw [Path.withExtension, getLast?_concat, List.dropLast_concat]

/-- Replacing the extension twice returns to the original name when
the original extension is known. -/
theorem withExtName_toggle {n ex : String} (h : extName n = some ex)
    (e1 : String) (he1 : '.' ∉ e1.data) (hgood : goodName n) :
    withExtName (withExtName n e1) ex = n := by
  have hs := stemName_ne_nil hgood
  rw [withExtName, stemName_withExtName n e1 he1 hs]
  obtain ⟨stem, _, _, hstem, hdec⟩ := extName_elim h
  rw [hstem]
  apply String.ext
  rw [String.data_append, String.data_append, hdec]
  simp

theorem create_simple_file_ok_path {s : String} {info : JsonFileInfoTypes}
    {m : Option String} {it : FileItem}
    (h : create_simple_file s info m = .ok it) : it.file_path = s := by
  rw [create_simple_file] at h
  split at h
  · cases h
  · cases h
    rfl

/-! ### Claim C7: scan structure lemmas -/

theorem Except.map_some_ok_iff {e : Except String FileItem} {it : FileItem} :
    (e.map some = .ok (some it)) ↔ e = .ok it := by
  cases e <;> simp [Except.map]

theorem sonyAlbumFold_acc_sub {fs : FS}
    {visitor : Path → String → String → Option String → Except String (Option FileItem)} :
    ∀ (albums : List Path) (acc res : List FileItem),
      sonyAlbumFold fs visitor albums acc = .ok res → ∀ it ∈ acc, it ∈ res := by
  intro albums
  induction albums with
  | nil =>
    intro acc res h it hit
    rw [sonyAlbumFold] at h
    cases h
    exact hit
  | cons a rest ih =>
    intro acc res h it hit
    rw [sonyAlbumFold] at h
    cases hfa : filter_dir fs a visitor with
    | error e => rw [hfa] at h; cases h
    | ok set =>
      rw [hfa] at h
      exact ih _ _ h it (List.mem_append.mpr (Or.inl hit))

theorem sonyAlbumFold_forward {fs : FS}
    {visitor : Path → String → String → Option String → Except String (Option FileItem)} :
    ∀ (albums : List Path) (acc res : List FileItem),
      sonyAlbumFold fs visitor albums acc = .ok res →
      ∀ a ∈ albums, ∃ its, filter_dir fs a visitor = .ok its ∧ ∀ it ∈ its, it ∈ res := by
  intro albums
  induction albums with
  | nil => intro acc res h a ha; cases ha
  | cons b rest ih =>
    intro acc res h a ha
    rw [sonyAlbumFold] at h
    cases hfb : filter_dir fs b visitor with
    | error e => rw [hfb] at h; cases h
    | ok set =>
      rw [hfb] at h
      rcases List.mem_cons.mp ha with rfl | ha'
      · exact ⟨set, hfb, fun it hit =>
          sonyAlbumFold_acc_sub _ _ _ h it (List.mem_append.mpr (Or.inr hit))⟩
      · exact ih _ _ h a ha'

theorem sonyAlbumFold_source {fs : FS}
    {visitor : Path → String → String → Option String → Except String (Option FileItem)} :
    ∀ (albums : List Path) (acc res : List FileItem),
      sonyAlbumFold fs visitor albums acc = .ok res →
      ∀ it ∈ res, it ∈ acc ∨ ∃ a ∈ albums, ∃ its,
        filter_dir fs a visitor = .ok its ∧ it ∈ its := by
  intro albums
  induction albums with
  | nil =>
    intro acc res h it hit
    rw [sonyAlbumFold] at h
    cases h
    exact Or.inl hit
  | cons b rest ih =>
    intro acc res h it hit
    rw [sonyAlbumFold] at h
    cases hfb : filter_dir fs b visitor with
    | error e => rw [hfb] at h; cases h
    | ok set =>
      rw [hfb] at h
      rcases ih _ _ h it hit with hin | ⟨a, ha, its, hfa, hia⟩
      · rcases List.mem_append.mp hin with hm | hm
        · exact Or.inl hm
        · exact Or.inr ⟨b, List.mem_cons_self _ _, set, hfb, hm⟩
      · exact Or.inr ⟨a, List.mem_cons_of_mem _ ha, its, hfa, hia⟩

theorem sony_lhq_elim {fs : FS} {loc card : Path} {km : List Path}
    {items : List FileItem}
    (h : sony_list_high_quality fs loc card km = .ok items) :
    ∃ files videos, items = files ++ videos ∧
      filter_dir fs (card ++ ["PRIVATE", "M4ROOT", "CLIP"])
        (sony_high_quality_video_visitor loc) = .ok videos ∧
      ((pathExists fs (card ++ ["DCIM"]) = true ∧
          sonyAlbumFold fs (sony_high_quality_image_visitor fs loc)
            (dirChildren fs (card ++ ["DCIM"])) [] = .ok files) ∨
       (pathExists fs (card ++ ["DCIM"]) = false ∧ files = [])) := by
  unfold sony_list_high_quality at h
  simp only [bind, Except.bind] at h
  by_cases hd : pathExists fs (card ++ ["DCIM"])
  · rw [if_pos hd] at h
    cases hf : sonyAlbumFold fs (sony_high_quality_image_visitor fs loc)
        (dirChildren fs (card ++ ["DCIM"])) [] with
    | error e => rw [hf] at h; cases h
    | ok files =>
      rw [hf] at h
      dsimp only at h
      cases hv : filter_dir fs (card ++ ["PRIVATE", "M4ROOT", "CLIP"])
          (sony_high_quality_video_visitor loc) with
      | error e => rw [hv] at h; cases h
      | ok videos =>
        rw [hv] at h
        dsimp only [pure, Except.pure] at h
        cases h
        exact ⟨files, videos, rfl, rfl, Or.inl ⟨hd, rfl⟩⟩
  · rw [if_neg hd] at h
    dsimp only [pure, Except.pure] at h
    cases hv : filter_dir fs (card ++ ["PRIVATE", "M4ROOT", "CLIP"])
        (sony_high_quality_video_visitor loc) with
    | error e => rw [hv] at h; cases h
    | ok videos =>
      rw [hv] at h
      dsimp only [pure, Except.pure] at h
      cases h
      exact ⟨[], videos, rfl, rfl, Or.inr ⟨by simpa using hd, rfl⟩⟩

theorem sony_lt_elim {fs : FS} {loc card : Path} {km : List Path}
    {items : List FileItem}
    (h : sony_list_thumbnail fs loc card km = .ok items) :
    ∃ files videos, items = files ++ videos ∧
      filter_dir fs (card ++ ["PRIVATE", "M4ROOT", "THMBNL"])
        (sony_thumbnail_video_visitor loc) = .ok videos ∧
      ((pathExists fs (card ++ ["DCIM"]) = true ∧
          sonyAlbumFold fs (sony_thumbnail_image_visitor fs loc)
            (dirChildren fs (card ++ ["DCIM"])) [] = .ok files) ∨
       (pathExists fs (card ++ ["DCIM"]) = false ∧ files = [])) := by
  unfold sony_list_thumbnail at h
  simp only [bind, Except.bind] at h
  by_cases hd : pathExists fs (card ++ ["DCIM"])
  · rw [if_pos hd] at h
    cases hf : sonyAlbumFold fs (sony_thumbnail_image_visitor fs loc)
        (dirChildren fs (card ++ ["DCIM"])) [] with
    | error e => rw [hf] at h; cases h
    | ok files =>
      rw [hf] at h
      dsimp only at h
      cases hv : filter_dir fs (card ++ ["PRIVATE", "M4ROOT", "THMBNL"])
          (sony_thumbnail_video_visitor loc) with
      | error e => rw [hv] at h; cases h
      | ok videos =>
        rw [hv] at h
        dsimp only [pure, Except.pure] at h
        cases h
        exact ⟨files, videos, rfl, rfl, Or.inl ⟨hd, rfl⟩⟩
  · rw [if_neg hd] at h
    dsimp only [pure, Except.pure] at h
    cases hv : filter_dir fs (card ++ ["PRIVATE", "M4ROOT", "THMBNL"])
        (sony_thumbnail_video_visitor loc) with
    | error e => rw [hv] at h; cases h
    | ok videos =>
      rw [hv] at h
      dsimp only [pure, Except.pure] at h
      cases h
      exact ⟨[], videos, rfl, rfl, Or.inr ⟨by simpa using hd, rfl⟩⟩

/-! ### Claim C7: visitor characterizations -/

theorem sony_hq_image_visitor_path {fs : FS} {loc p : Path} {fn pstr : String}
    {eo : Option String} {it : FileItem}
    (h : sony_high_quality_image_visitor fs loc p fn pstr eo = .ok (some it)) :
    it.file_path = pstr := by
  unfold sony_high_quality_image_visitor at h
  split at h
  · -- JPG arm
    split at h
    · simp only [bind, Except.bind] at h
      cases hi : sony_filetype p loc with
      | error e => rw [hi] at h; cases h
      | ok info =>
        rw [hi] at h
        dsimp only at h
        exact create_simple_file_ok_path (Except.map_some_ok_iff.mp h)
    · cases h
  · -- ARW arm
    simp only [bind, Except.bind] at h
    cases hi : sony_filetype p loc with
    | error e => rw [hi] at h; cases h
    | ok info =>
      rw [hi] at h
      dsimp only at h
      exact create_simple_file_ok_path (Except.map_some_ok_iff.mp h)
  · cases h

theorem sony_t_image_visitor_path {fs : FS} {loc p : Path} {fn pstr : String}
    {eo : Option String} {it : FileItem}
    (h : sony_thumbnail_image_visitor fs loc p fn pstr eo = .ok (some it)) :
    it.file_path = pstr := by
  unfold sony_thumbnail_image_visitor at h
  split at h
  · -- ARW arm
    split at h
    · simp only [bind, Except.bind] at h
      cases hi : sony_filetype p loc with
      | error e => rw [hi] at h; cases h
      | ok info =>
        rw [hi] at h
        dsimp only at h
        exact create_simple_file_ok_path (Except.map_some_ok_iff.mp h)
    · cases h
  · -- JPG arm
    simp only [bind, Except.bind] at h
    cases hi : sony_filetype p loc with
    | error e => rw [hi] at h; cases h
    | ok info =>
      rw [hi] at h
      dsimp only at h
      exact create_simple_file_ok_path (Except.map_some_ok_iff.mp h)
  · cases h

theorem sony_hq_video_visitor_path {loc p : Path} {fn pstr : String}
    {eo : Option String} {it : FileItem}
    (h : sony_high_quality_video_visitor loc p fn pstr eo = .ok (some it)) :
    it.file_path = pstr := by
  unfold sony_high_quality_video_visitor at h
  split at h
  · simp only [bind, Except.bind] at h
    cases hi : sony_filetype p loc with
    | error e => rw [hi] at h; cases h
    | ok info =>
      rw [hi] at h
      dsimp only [pure, Except.pure] at h
      cases h
      rfl
  · cases h
  · cases h

theorem sony_t_video_visitor_path {loc p : Path} {fn pstr : String}
    {eo : Option String} {it : FileItem}
    (h : sony_thumbnail_video_visitor loc p fn pstr eo = .ok (some it)) :
    it.file_path = pstr := by
  unfold sony_thumbnail_video_visitor at h
  split at h
  · simp only [bind, Except.bind] at h
    cases hi : sony_filetype p loc with
    | error e => rw [hi] at h; cases h
    | ok info =>
      rw [hi] at h
      dsimp only [pure, Except.pure] at h
      cases h
      rfl
  · cases h

theorem sony_hq_image_visitor_arw_emit {fs : FS} {loc p : Path} {fn pstr : String}
    {r : Option FileItem}
    (h : sony_high_quality_image_visitor fs loc p fn pstr (some "ARW") = .ok r) :
    ∃ it, r = some it ∧ it.file_path = pstr := by
  unfold sony_high_quality_image_visitor at h
  simp only [bind, Except.bind] at h
  cases hi : sony_filetype p loc with
  | error e => rw [hi] at h; cases h
  | ok info =>
    rw [hi] at h
    dsimp only at h
    cases hc : create_simple_file pstr info none with
    | error e => rw [hc] at h; simp [Except.map] at h
    | ok it =>
      rw [hc] at h
      simp only [Except.map, Except.ok.injEq] at h
      exact ⟨it, h.symm, create_simple_file_ok_path hc⟩

theorem sony_t_image_visitor_jpg_emit {fs : FS} {loc p : Path} {fn pstr : String}
    {r : Option FileItem}
    (h : sony_thumbnail_image_visitor fs loc p fn pstr (some "JPG") = .ok r) :
    ∃ it, r = some it ∧ it.file_path = pstr := by
  unfold sony_thumbnail_image_visitor at h
  simp only [bind, Except.bind] at h
  cases hi : sony_filetype p loc with
  | error e => rw [hi] at h; cases h
  | ok info =>
    rw [hi] at h
    dsimp only at h
    cases hc : create_simple_file pstr info none with
    | error e => rw [hc] at h; simp [Except.map] at h
    | ok it =>
      rw [hc] at h
      simp only [Except.map, Except.ok.injEq] at h
      exact ⟨it, h.symm, create_simple_file_ok_path hc⟩

theorem sony_hq_image_visitor_jpg_skip {fs : FS} {loc p : Path} {fn pstr : String}
    (hex : pathExists fs (Path.withExtension p "ARW") = true) :
    sony_high_quality_image_visitor fs loc p fn pstr (some "JPG") = .ok none := by
  unfold sony_high_quality_image_visitor
  rw [hex]
  rfl

theorem sony_t_image_visitor_arw_skip {fs : FS} {loc p : Path} {fn pstr : String}
    (hex : pathExists fs (Path.withExtension p "JPG") = true) :
    sony_thumbnail_image_visitor fs loc p fn pstr (some "ARW") = .ok none := by
  unfold sony_thumbnail_image_visitor
  rw [hex]
  rfl

theorem goodPath_append {a b : Path} (ha : goodPath a) (hb : goodPath b) :
    goodPath (a ++ b) := by
  intro c hc
  rcases List.mem_append.mp hc with h | h
  · exact ha c h
  · exact hb c h

/-- No item of a successful Sony `list_high_quality` run has the
rendered path of a target entry on which both per-entry visitors
refuse to emit. -/
theorem sony_lhq_not_emitted {fs : FS} {loc card : Path} {km : List Path}
    {items : List FileItem} {target : Path}
    (hgfs : goodFS fs) (hgc : goodPath card)
    (h : sony_list_high_quality fs loc card km = .ok items)
    (htg : goodPath target)
    (himg : ∀ fn, target.getLast? = some fn →
      ∀ it, sony_high_quality_image_visitor fs loc target fn (render target) (extName fn) ≠
        .ok (some it))
    (hvid : ∀ fn, target.getLast? = some fn →
      ∀ it, sony_high_quality_video_visitor loc target fn (render target) (extName fn) ≠
        .ok (some it)) :
    ∀ it ∈ items, it.file_path ≠ render target := by
  intro it hm heq
  obtain ⟨files, videos, rfl, hvfd, hcase⟩ := sony_lhq_elim h
  rcases List.mem_append.mp hm with hmf | hmv
  · rcases hcase with ⟨hd, hfold⟩ | ⟨hd, hfe⟩
    · rcases sonyAlbumFold_source _ _ _ hfold it hmf with hin | ⟨a, ha, its, hfa, hia⟩
      · cases hin
      · obtain ⟨_, hauxA⟩ := filter_dir_ok_elim hfa
        obtain ⟨e, he, hfe⟩ := filterDirAux_ok_mem hauxA hia
        obtain ⟨m, rfl, _⟩ := dirChildren_shape he
        rw [entryVisit_child] at hfe
        have hpath := sony_hq_image_visitor_path hfe
        have hre : render (a ++ [m]) = render target := by rw [← hpath, heq]
        have hgdcim : goodPath (card ++ ["DCIM"]) := goodPath_append hgc (by decide)
        have hga : goodPath a := dirChildren_good hgfs hgdcim ha
        have hge : goodPath (a ++ [m]) := dirChildren_good hgfs hga he
        have het : a ++ [m] = target := render_inj hge htg hre
        have hlast : target.getLast? = some m := by rw [← het, getLast?_concat]
        rw [het] at hfe
        exact himg m hlast it hfe
    · rw [hfe] at hmf
      cases hmf
  · obtain ⟨_, hauxV⟩ := filter_dir_ok_elim hvfd
    obtain ⟨e, he, hfe⟩ := filterDirAux_ok_mem hauxV hmv
    obtain ⟨m, rfl, _⟩ := dirChildren_shape he
    rw [entryVisit_child] at hfe
    have hpath := sony_hq_video_visitor_path hfe
    have hre : render ((card ++ ["PRIVATE", "M4ROOT", "CLIP"]) ++ [m]) = render target := by
      rw [← hpath, heq]
    have hgclip : goodPath (card ++ ["PRIVATE", "M4ROOT", "CLIP"]) :=
      goodPath_append hgc (by decide)
    have hge : goodPath ((card ++ ["PRIVATE", "M4ROOT", "CLIP"]) ++ [m]) :=
      dirChildren_good hgfs hgclip he
    have het : (card ++ ["PRIVATE", "M4ROOT", "CLIP"]) ++ [m] = target :=
      render_inj hge htg hre
    have hlast : target.getLast? = some m := by rw [← het, getLast?_concat]
    rw [het] at hfe
    exact hvid m hlast it hfe

/-- No item of a successful Sony `list_thumbnail` run has the rendered
path of a target entry on which both per-entry visitors refuse to
emit. -/
theorem sony_lt_not_emitted {fs : FS} {loc card : Path} {km : List Path}
    {items : List FileItem} {target : Path}
    (hgfs : goodFS fs) (hgc : goodPath card)
    (h : sony_list_thumbnail fs loc card km = .ok items)
    (htg : goodPath target)
    (himg : ∀ fn, target.getLast? = some fn →
      ∀ it, sony_thumbnail_image_visitor fs loc target fn (render target) (extName fn) ≠
        .ok (some it))
    (hvid : ∀ fn, target.getLast? = some fn →
      ∀ it, sony_thumbnail_video_visitor loc target fn (render target) (extName fn) ≠
        .ok (some it)) :
    ∀ it ∈ items, it.file_path ≠ render target := by
  intro it hm heq
  obtain ⟨files, videos, rfl, hvfd, hcase⟩ := sony_lt_elim h
  rcases List.mem_append.mp hm with hmf | hmv
  · rcases hcase with ⟨hd, hfold⟩ | ⟨hd, hfe⟩
    · rcases sonyAlbumFold_source _ _ _ hfold it hmf with hin | ⟨a, ha, its, hfa, hia⟩
      · cases hin
      · obtain ⟨_, hauxA⟩ := filter_dir_ok_elim hfa
        obtain ⟨e, he, hfe⟩ := filterDirAux_ok_mem hauxA hia
        obtain ⟨m, rfl, _⟩ := dirChildren_shape he
        rw [entryVisit_child] at hfe
        have hpath := sony_t_image_visitor_path hfe
        have hre : render (a ++ [m]) = render target := by rw [← hpath, heq]
        have hgdcim : goodPath (card ++ ["DCIM"]) := goodPath_append hgc (by decide)
        have hga : goodPath a := dirChildren_good hgfs hgdcim ha
        have hge : goodPath (a ++ [m]) := dirChildren_good hgfs hga he
        have het : a ++ [m] = target := render_inj hge htg hre
        have hlast : target.getLast? = some m := by rw [← het, getLast?_concat]
        rw [het] at hfe
        exact himg m hlast it hfe
    · rw [hfe] at hmf
      cases hmf
  · obtain ⟨_, hauxV⟩ := filter_dir_ok_elim hvfd
    obtain ⟨e, he, hfe⟩ := filterDirAux_ok_mem hauxV hmv
    obtain ⟨m, rfl, _⟩ := dirChildren_shape he
    rw [entryVisit_child] at hfe
    have hpath := sony_t_video_visitor_path hfe
    have hre : render ((card ++ ["PRIVATE", "M4ROOT", "THMBNL"]) ++ [m]) = render target := by
      rw [← hpath, heq]
    have hgthm : goodPath (card ++ ["PRIVATE", "M4ROOT", "THMBNL"]) :=
      goodPath_append hgc (by decide)
    have hge : goodPath ((card ++ ["PRIVATE", "M4ROOT", "THMBNL"]) ++ [m]) :=
      dirChildren_good hgfs hgthm he
    have het : (card ++ ["PRIVATE", "M4ROOT", "THMBNL"]) ++ [m] = target :=
      render_inj hge htg hre
    have hlast : target.getLast? = some m := by rw [← het, getLast?_concat]
    rw [het] at hfe
    exact hvid m hlast it hfe

theorem get_extension_str_concat {n e : String} (h : extName n = some e) (A : Path) :
    get_extension_str (A ++ [n]) = .ok e := by
  simp [get_extension_str, getLast?_concat, h]

/-- A structurally matching DCIM path whose upward traversal does not
land exactly on the supplied base location fails classification with
the structural-mismatch error. -/
theorem sony_dcim_branch_wrong_root (X : Path) (album2 : String) (root : Path)
    (c extension file_str : String) (loc : Path) (hroot : root ≠ loc) :
    sony_dcim_branch (X ++ [album2]) ((root ++ [c]) ++ ["DCIM"])
      extension file_str loc = .ok none := by
  unfold sony_dcim_branch
  simp only [bind, Except.bind]
  rw [getLast?_concat]
  dsimp only
  rw [parentOpt_concat]
  dsimp only
  rw [parentOpt_concat]
  dsimp only
  rw [if_neg (by rw [decide_eq_false hroot]; simp)]
  rfl

theorem sony_filetype_wrong_root (root : Path) (c album2 n2 ex : String) (loc : Path)
    (hn2 : extName n2 = some ex) (hroot : root ≠ loc) :
    sony_filetype (root ++ [c, "DCIM", album2, n2]) loc =
      .error ("File path not in expected directory structure '" ++
        render (root ++ [c, "DCIM", album2, n2]) ++ "'") := by
  have hsplit : root ++ [c, "DCIM", album2, n2] = (root ++ [c, "DCIM", album2]) ++ [n2] := by
    simp
  have hsplit2 : root ++ [c, "DCIM", album2] = (root ++ [c, "DCIM"]) ++ [album2] := by
    simp
  have hsplit3 : root ++ [c, "DCIM"] = (root ++ [c]) ++ ["DCIM"] := by
    simp
  rw [hsplit]
  unfold sony_filetype
  simp only [bind, Except.bind]
  rw [get_extension_str_concat hn2]
  dsimp only
  rw [parentOpt_concat]
  dsimp only
  rw [hsplit2, parentOpt_concat]
  dsimp only
  rw [hsplit3, getLast?_concat]
  dsimp only
  rw [if_pos rfl]
  rw [sony_dcim_branch_wrong_root _ album2 root c _ _ loc hroot]
  dsimp only
  rw [if_neg (by decide : ¬("DCIM" = "M4ROOT"))]
  rfl

/-- C7: a scanned `.ARW` album entry with a same-stem `.JPG` sibling
on disk is emitted by `list_high_quality` while the JPG is not, is not
emitted by `list_thumbnail` where the JPG is emitted instead, and
classifying a structurally matching DCIM path whose upward traversal
does not land exactly on the supplied base location fails with the
"not in expected directory structure" error. -/
theorem C7_sony_classification (fs : FS) (loc card : Path) (km : List Path)
    (itsH itsT : List FileItem) (album q : Path) (name : String)
    (hgfs : goodFS fs) (hgc : goodPath card)
    (halb : album ∈ dirChildren fs (card ++ ["DCIM"]))
    (hq : q ∈ dirChildren fs album)
    (hql : q.getLast? = some name)
    (hext : extName name = some "ARW")
    (hjpg : pathExists fs (Path.withExtension q "JPG") = true)
    (hH : sony_list_high_quality fs loc card km = .ok itsH)
    (hT : sony_list_thumbnail fs loc card km = .ok itsT) :
    (∃ it ∈ itsH, it.file_path = render q) ∧
    (∀ it ∈ itsH, it.file_path ≠ render (Path.withExtension q "JPG")) ∧
    (∃ it ∈ itsT, it.file_path = render (Path.withExtension q "JPG")) ∧
    (∀ it ∈ itsT, it.file_path ≠ render q) ∧
    (∀ (root : Path) (c album2 n2 ex : String), extName n2 = some ex → root ≠ loc →
      sony_filetype (root ++ [c, "DCIM", album2, n2]) loc =
        .error ("File path not in expected directory structure '" ++
          render (root ++ [c, "DCIM", album2, n2]) ++ "'")) := by
  obtain ⟨m, rfl, _⟩ := dirChildren_shape hq
  have hme : name = m := by
    have h1 : some m = some name := by rw [← getLast?_concat album m, hql]
    exact (Option.some.inj h1).symm
  subst hme
  have hgdcim : goodPath (card ++ ["DCIM"]) := goodPath_append hgc (by decide)
  have hga : goodPath album := dirChildren_good hgfs hgdcim halb
  have hgq : goodPath (album ++ [name]) := dirChildren_good hgfs hga hq
  have hgname : goodName name := hgq name (by simp)
  have hjpe : Path.withExtension (album ++ [name]) "JPG" =
      album ++ [withExtName name "JPG"] := Path.withExtension_concat album name "JPG"
  have hgjp : goodPath (album ++ [withExtName name "JPG"]) := by
    refine goodPath_append hga ?_
    intro cc hcc
    rcases List.mem_singleton.mp hcc with rfl
    exact goodName_withExtName hgname (by decide) (by decide)
  have hextjp : extName (withExtName name "JPG") = some "JPG" :=
    extName_withExtName name "JPG" (by decide) (stemName_ne_nil hgname)
  have htog : withExtName (withExtName name "JPG") "ARW" = name :=
    withExtName_toggle hext "JPG" (by decide) hgname
  have hqex : pathExists fs (album ++ [name]) = true := dirChildren_exists hq
  have hjpex : pathExists fs (album ++ [withExtName name "JPG"]) = true := by
    rw [← hjpe]; exact hjpg
  have hjmem : (album ++ [withExtName name "JPG"]) ∈ dirChildren fs album :=
    mem_dirChildren_of_exists hjpex
  have hjp_arw : Path.withExtension (album ++ [withExtName name "JPG"]) "ARW" =
      album ++ [name] := by
    rw [Path.withExtension_concat, htog]
  have hdcim : pathExists fs (card ++ ["DCIM"]) = true := pathExists_of_children halb
  refine ⟨?_, ?_, ?_, ?_, ?_⟩
  · -- the ARW is emitted by list_high_quality
    obtain ⟨files, videos, hitems, hvfd, hcase⟩ := sony_lhq_elim hH
    rcases hcase with ⟨_, hfold⟩ | ⟨hd', _⟩
    · obtain ⟨itsA, hfa, hsub⟩ := sonyAlbumFold_forward _ _ _ hfold album halb
      obtain ⟨_, hauxA⟩ := filter_dir_ok_elim hfa
      obtain ⟨r, hr⟩ := filterDirAux_ok_all hauxA hq
      rw [entryVisit_child, hext] at hr
      obtain ⟨itA, rfl, hpath⟩ := sony_hq_image_visitor_arw_emit hr
      have hmemA : itA ∈ itsA :=
        filterDirAux_ok_forward hauxA hq (by rw [entryVisit_child, hext]; exact hr)
      exact ⟨itA, by rw [hitems]; exact List.mem_append.mpr (Or.inl (hsub itA hmemA)), hpath⟩
    · rw [hdcim] at hd'; cases hd'
  · -- the JPG sibling is not emitted by list_high_quality
    rw [hjpe]
    refine sony_lhq_not_emitted hgfs hgc hH hgjp ?_ ?_
    · intro fn hfn it hvis
      obtain rfl : fn = withExtName name "JPG" := by
        rw [getLast?_concat] at hfn
        exact (Option.some.inj hfn).symm
      rw [hextjp] at hvis
      rw [sony_hq_image_visitor_jpg_skip (by rw [hjp_arw]; exact hqex)] at hvis
      cases hvis
    · intro fn hfn it hvis
      obtain rfl : fn = withExtName name "JPG" := by
        rw [getLast?_concat] at hfn
        exact (Option.some.inj hfn).symm
      rw [hextjp] at hvis
      simp [sony_high_quality_video_visitor] at hvis
  · -- the JPG sibling is emitted by list_thumbnail
    obtain ⟨files, videos, hitems, hvfd, hcase⟩ := sony_lt_elim hT
    rcases hcase with ⟨_, hfold⟩ | ⟨hd', _⟩
    · obtain ⟨itsA, hfa, hsub⟩ := sonyAlbumFold_forward _ _ _ hfold album halb
      obtain ⟨_, hauxA⟩ := filter_dir_ok_elim hfa
      obtain ⟨r, hr⟩ := filterDirAux_ok_all hauxA hjmem
      rw [entryVisit_child, hextjp] at hr
      obtain ⟨itT, rfl, hpath⟩ := sony_t_image_visitor_jpg_emit hr
      have hmemA : itT ∈ itsA :=
        filterDirAux_ok_forward hauxA hjmem (by rw [entryVisit_child, hextjp]; exact hr)
      refine ⟨itT, by rw [hitems]; exact List.mem_append.mpr (Or.inl (hsub itT hmemA)), ?_⟩
      rw [hpath, hjpe]
    · rw [hdcim] at hd'; cases hd'
  · -- the ARW is not emitted by list_thumbnail
    refine sony_lt_not_emitted hgfs hgc hT hgq ?_ ?_
    · intro fn hfn it hvis
      obtain rfl : fn = name := by
        rw [getLast?_concat] at hfn
        exact (Option.some.inj hfn).symm
      rw [hext] at hvis
      rw [sony_t_image_visitor_arw_skip hjpg] at hvis
      cases hvis
    · intro fn hfn it hvis
      obtain rfl : fn = name := by
        rw [getLast?_concat] at hfn
        exact (Option.some.inj hfn).symm
      rw [hext] at hvis
      simp [sony_thumbnail_video_visitor] at hvis
  · exact fun root c album2 n2 ex h1 h2 =>
      sony_filetype_wrong_root root c album2 n2 ex loc h1 h2

/-- C7 witness: the theorem applied to the fixture card
`/base/card` with `DCIM/100MSDCF/IMG001.{ARW,JPG}` plus one CLIP video
and one THMBNL thumbnail. -/
theorem C7_sony_classification_witness :
    (∃ it ∈ [FileItem.mk "/base/card/DCIM/100MSDCF/IMG001.ARW" "image-raw" "image" none none none,
             FileItem.mk "/base/card/PRIVATE/M4ROOT/CLIP/C0001.MP4" "video" "video" (some 1) (some 1) none],
       it.file_path = render (["base", "card", "DCIM", "100MSDCF"] ++ ["IMG001.ARW"])) ∧
    (∀ it ∈ [FileItem.mk "/base/card/DCIM/100MSDCF/IMG001.ARW" "image-raw" "image" none none none,
             FileItem.mk "/base/card/PRIVATE/M4ROOT/CLIP/C0001.MP4" "video" "video" (some 1) (some 1) none],
       it.file_path ≠ render (Path.withExtension (["base", "card", "DCIM", "100MSDCF"] ++ ["IMG001.ARW"]) "JPG")) ∧
    (∃ it ∈ [FileItem.mk "/base/card/DCIM/100MSDCF/IMG001.JPG" "image" "image" none none none,
             FileItem.mk "/base/card/PRIVATE/M4ROOT/THMBNL/C0001T01.JPG" "image-preview" "video" (some 1) (some 1) none],
       it.file_path = render (Path.withExtension (["base", "card", "DCIM", "100MSDCF"] ++ ["IMG001.ARW"]) "JPG")) ∧
    (∀ it ∈ [FileItem.mk "/base/card/DCIM/100MSDCF/IMG001.JPG" "image" "image" none none none,
             FileItem.mk "/base/card/PRIVATE/M4ROOT/THMBNL/C0001T01.JPG" "image-preview" "video" (some 1) (some 1) none],
       it.file_path ≠ render (["base", "card", "DCIM", "100MSDCF"] ++ ["IMG001.ARW"])) ∧
    (∀ (root : Path) (c album2 n2 ex : String), extName n2 = some ex → root ≠ ["base"] →
      sony_filetype (root ++ [c, "DCIM", album2, n2]) ["base"] =
        .error ("File path not in expected directory structure '" ++
          render (root ++ [c, "DCIM", album2, n2]) ++ "'")) :=
  C7_sony_classification
    [["base", "card", "DCIM", "100MSDCF", "IMG001.ARW"],
     ["base", "card", "DCIM", "100MSDCF", "IMG001.JPG"],
     ["base", "card", "PRIVATE", "M4ROOT", "THMBNL", "C0001T01.JPG"],
     ["base", "card", "PRIVATE", "M4ROOT", "CLIP", "C0001.MP4"]]
    ["base"] ["base", "card"] []
    [FileItem.mk "/base/card/DCIM/100MSDCF/IMG001.ARW" "image-raw" "image" none none none,
     FileItem.mk "/base/card/PRIVATE/M4ROOT/CLIP/C0001.MP4" "video" "video" (some 1) (some 1) none]
    [FileItem.mk "/base/card/DCIM/100MSDCF/IMG001.JPG" "image" "image" none none none,
     FileItem.mk "/base/card/PRIVATE/M4ROOT/THMBNL/C0001T01.JPG" "image-preview" "video" (some 1) (some 1) none]
    ["base", "card", "DCIM", "100MSDCF"]
    (["base", "card", "DCIM", "100MSDCF"] ++ ["IMG001.ARW"])
    "IMG001.ARW"
    (by decide) (by decide) (by decide) (by decide) (by rfl) (by rfl) (by decide)
    (by rfl) (by rfl)

end MediaInterface
